import Mathlib

/-!
# VtkDiffusionModule (opm-models): buffer life cycle of the diffusion output module

Shallow embedding of `src/opm/models/io/vtkdiffusionmodule.hh`.

* The run-time parameter store (`Parameters::Get<...>()`) is a record of Booleans.
* The three function-local `static bool val` caches of the flag accessors are
  `Option Bool` cells (`none` = the static has not been initialised yet).
* The three member buffers are the module state.
* `processElement` is fallible: an access outside a buffer (undefined behaviour in
  the C++ source) is the result `none`.
* Scalars are an arbitrary type `S`: the module only copies values, it never
  computes with them.  `Evaluation` is an arbitrary type `E` and
  `Toolbox::value` a function `E → S`.
* Local indices, global indices, phase and component indices are `unsigned` in the
  source and are delivered as such by the element context, so no narrowing takes
  place; they are natural numbers here.
-/

namespace Opm

/-! ## Parameters and the cached flags -/

/-- The run-time parameters read by the module through `Parameters::Get`. -/
structure ParameterStore where
  enableVtkOutput : Bool
  vtkWriteTortuosities : Bool
  vtkWriteDiffusionCoefficients : Bool
  vtkWriteEffectiveDiffusionCoefficients : Bool
deriving DecidableEq, Repr

/-- The function-local statics `static bool val` of the three flag accessors;
`none` means the static has not been initialised (the accessor was never called). -/
structure FlagStatics where
  tortuosityVal : Option Bool
  diffusionCoefficientVal : Option Bool
  effectiveDiffusionCoefficientVal : Option Bool
deriving DecidableEq, Repr

/-- No accessor has been called yet. -/
def FlagStatics.unresolved : FlagStatics := ⟨none, none, none⟩

/-! ## Buffers -/

/-- One scalar per global degree of freedom. -/
abbrev ScalarBuffer (S : Type) := List S

/-- Modelled from the spec: the type `PhaseBuffer` of the absent
`BaseOutputModule`: a sequence of `numPhases` scalar buffers which exists only
if its quantity is enabled; `none` is the unallocated buffer. -/
abbrev PhaseBuffer (S : Type) := Option (List (ScalarBuffer S))

/-- Modelled from the spec: the type `PhaseComponentBuffer` of the absent
`BaseOutputModule`: `numPhases` sequences of `numComponents` scalar buffers;
`none` is the unallocated buffer. -/
abbrev PhaseComponentBuffer (S : Type) := Option (List (List (ScalarBuffer S)))

/-- The data members `tortuosity_`, `diffusionCoefficient_` and
`effectiveDiffusionCoefficient_`. -/
structure VtkDiffusionModule (S : Type) where
  tortuosity_ : PhaseBuffer S
  diffusionCoefficient_ : PhaseComponentBuffer S
  effectiveDiffusionCoefficient_ : PhaseComponentBuffer S
deriving DecidableEq, Repr

/-- Modelled from the spec: a freshly constructed module; the constructor of the
source only forwards to the absent parent class, and no quantity has a buffer
before the first allocation. -/
def VtkDiffusionModule.fresh {S : Type} : VtkDiffusionModule S := ⟨none, none, none⟩

/-- Everything the member functions read or write. -/
structure State (S : Type) where
  params : ParameterStore
  statics : FlagStatics
  module : VtkDiffusionModule S
deriving DecidableEq, Repr

/-- The compile-time constants of the type tag: `numPhases`, `numComponents`
and `MathToolbox<Evaluation>::value`. -/
structure TypeTag (S E : Type) where
  numPhases : Nat
  numComponents : Nat
  value : E → S

/-! ## The element context (external collaborator) -/

/-- The three queries the module makes on the intensive quantities of a DOF. -/
structure IntensiveQuantities (E : Type) where
  tortuosity : Nat → E
  diffusionCoefficient : Nat → Nat → E
  effectiveDiffusionCoefficient : Nat → Nat → E

/-- The part of the element context the module uses; the last argument of each
query is the time index. -/
structure ElementContext (E : Type) where
  numPrimaryDof : Nat → Nat
  globalSpaceIndex : Nat → Nat → Nat
  intensiveQuantities : Nat → Nat → IntensiveQuantities E

/-! ## The output writer (external collaborator) -/

/-- One call of `commitPhaseBuffer_` or `commitPhaseComponentBuffer_`, with the
name and the buffer passed. -/
inductive CommitCall (S : Type) where
  | phaseBuffer (name : String) (buffer : PhaseBuffer S)
  | phaseComponentBuffer (name : String) (buffer : PhaseComponentBuffer S)
deriving DecidableEq, Repr

/-- A `BaseOutputWriter`: its dynamic type (is it a `VtkMultiWriter`?) and the
commit calls it has received so far. -/
structure BaseOutputWriter (S : Type) where
  isVtkMultiWriter : Bool
  calls : List (CommitCall S)
deriving DecidableEq, Repr

section Code

variable {S E : Type}

/-! ## The flag accessors (source lines 169-185) -/

/-- `static bool tortuosityOutput_()`: the static is initialised from the
parameter store by the first call and returned by every call. -/
def tortuosityOutput_ (w : State S) : Bool × State S :=
  match w.statics.tortuosityVal with
  | some val => (val, w)
  | none =>
    (w.params.vtkWriteTortuosities,
      { w with statics :=
          { w.statics with tortuosityVal := some w.params.vtkWriteTortuosities } })

/-- `static bool diffusionCoefficientOutput_()`. -/
def diffusionCoefficientOutput_ (w : State S) : Bool × State S :=
  match w.statics.diffusionCoefficientVal with
  | some val => (val, w)
  | none =>
    (w.params.vtkWriteDiffusionCoefficients,
      { w with statics :=
          { w.statics with
            diffusionCoefficientVal := some w.params.vtkWriteDiffusionCoefficients } })

/-- `static bool effectiveDiffusionCoefficientOutput_()`. -/
def effectiveDiffusionCoefficientOutput_ (w : State S) : Bool × State S :=
  match w.statics.effectiveDiffusionCoefficientVal with
  | some val => (val, w)
  | none =>
    (w.params.vtkWriteEffectiveDiffusionCoefficients,
      { w with statics :=
          { w.statics with
            effectiveDiffusionCoefficientVal :=
              some w.params.vtkWriteEffectiveDiffusionCoefficients } })

/-! ## allocBuffers (source lines 108-116) -/

/-- Modelled from the spec: `resizePhaseBuffer_` of the absent `BaseOutputModule`:
the buffer becomes `numPhases` arrays of length `numDof`, every element zero,
whatever it held before. -/
def resizePhaseBuffer_ [Zero S] (T : TypeTag S E) (numDof : Nat) (_buffer : PhaseBuffer S) :
    PhaseBuffer S :=
  some (List.replicate T.numPhases (List.replicate numDof 0))

/-- Modelled from the spec: `resizePhaseComponentBuffer_` of the absent
`BaseOutputModule`: the buffer becomes `numPhases` times `numComponents` arrays of
length `numDof`, every element zero, whatever it held before. -/
def resizePhaseComponentBuffer_ [Zero S] (T : TypeTag S E) (numDof : Nat)
    (_buffer : PhaseComponentBuffer S) : PhaseComponentBuffer S :=
  some (List.replicate T.numPhases (List.replicate T.numComponents (List.replicate numDof 0)))

/-- `allocBuffers()`; `numDof` is the number of degrees of freedom of the grid
at the time of the call, which the resize helpers take from the simulator. -/
def allocBuffers [Zero S] (T : TypeTag S E) (numDof : Nat) (w : State S) : State S :=
  let r1 := tortuosityOutput_ w
  let w1 : State S :=
    if r1.1 then
      { r1.2 with module :=
          { r1.2.module with
            tortuosity_ := resizePhaseBuffer_ T numDof r1.2.module.tortuosity_ } }
    else r1.2
  let r2 := diffusionCoefficientOutput_ w1
  let w2 : State S :=
    if r2.1 then
      { r2.2 with module :=
          { r2.2.module with
            diffusionCoefficient_ :=
              resizePhaseComponentBuffer_ T numDof r2.2.module.diffusionCoefficient_ } }
    else r2.2
  let r3 := effectiveDiffusionCoefficientOutput_ w2
  if r3.1 then
    { r3.2 with module :=
        { r3.2.module with
          effectiveDiffusionCoefficient_ :=
            resizePhaseComponentBuffer_ T numDof r3.2.module.effectiveDiffusionCoefficient_ } }
  else r3.2

/-! ## processElement (source lines 122-145) -/

/-- The loop `for (unsigned k = 0; k < n; ++k) body(k)` over a state, where an
iteration may fail. -/
def forLoop {σ : Type} (n : Nat) (body : Nat → σ → Option σ) (s : σ) : Option σ :=
  match n with
  | 0 => some s
  | k + 1 => (forLoop k body s).bind (body k)

/-- The assignment `row[I] = v` on a scalar buffer; outside the buffer it is
undefined behaviour, here `none`. -/
def storeScalar (I : Nat) (v : S) (row : ScalarBuffer S) : Option (ScalarBuffer S) :=
  if I < row.length then some (row.set I v) else none

/-- The access `xs[k]` followed by an update of that element in place; outside
`xs` it is undefined behaviour, here `none`. -/
def updateAt {α : Type} (k : Nat) (f : α → Option α) (xs : List α) : Option (List α) :=
  match xs[k]? with
  | none => none
  | some x => (f x).map (fun y => xs.set k y)

/-- The assignment `buffer[phaseIdx][I] = v`; indexing an unallocated buffer is
undefined behaviour as well. -/
def storePhase (phaseIdx I : Nat) (v : S) (buffer : PhaseBuffer S) : Option (PhaseBuffer S) :=
  match buffer with
  | none => none
  | some rows => (updateAt phaseIdx (storeScalar I v) rows).map some

/-- The assignment `buffer[phaseIdx][compIdx][I] = v`. -/
def storePhaseComponent (phaseIdx compIdx I : Nat) (v : S) (buffer : PhaseComponentBuffer S) :
    Option (PhaseComponentBuffer S) :=
  match buffer with
  | none => none
  | some rows => (updateAt phaseIdx (updateAt compIdx (storeScalar I v)) rows).map some

/-- Source lines 133-134: `if (tortuosityOutput_()) tortuosity_[phaseIdx][I] = ...`. -/
def tortuosityStep (T : TypeTag S E) (I : Nat) (intQuants : IntensiveQuantities E)
    (phaseIdx : Nat) (w : State S) : Option (State S) :=
  let r := tortuosityOutput_ w
  if r.1 then
    (storePhase phaseIdx I (T.value (intQuants.tortuosity phaseIdx)) r.2.module.tortuosity_).map
      (fun b => { r.2 with module := { r.2.module with tortuosity_ := b } })
  else some r.2

/-- Source lines 136-138:
`if (diffusionCoefficientOutput_()) diffusionCoefficient_[phaseIdx][compIdx][I] = ...`. -/
def diffusionCoefficientStep (T : TypeTag S E) (I : Nat) (intQuants : IntensiveQuantities E)
    (phaseIdx compIdx : Nat) (w : State S) : Option (State S) :=
  let r := diffusionCoefficientOutput_ w
  if r.1 then
    (storePhaseComponent phaseIdx compIdx I
        (T.value (intQuants.diffusionCoefficient phaseIdx compIdx))
        r.2.module.diffusionCoefficient_).map
      (fun b => { r.2 with module := { r.2.module with diffusionCoefficient_ := b } })
  else some r.2

/-- Source lines 139-141: `if (effectiveDiffusionCoefficientOutput_())
effectiveDiffusionCoefficient_[phaseIdx][compIdx][I] = ...`. -/
def effectiveDiffusionCoefficientStep (T : TypeTag S E) (I : Nat)
    (intQuants : IntensiveQuantities E) (phaseIdx compIdx : Nat) (w : State S) :
    Option (State S) :=
  let r := effectiveDiffusionCoefficientOutput_ w
  if r.1 then
    (storePhaseComponent phaseIdx compIdx I
        (T.value (intQuants.effectiveDiffusionCoefficient phaseIdx compIdx))
        r.2.module.effectiveDiffusionCoefficient_).map
      (fun b => { r.2 with module := { r.2.module with effectiveDiffusionCoefficient_ := b } })
  else some r.2

/-- The body of the component loop (source lines 136-141). -/
def componentBody (T : TypeTag S E) (I : Nat) (intQuants : IntensiveQuantities E)
    (phaseIdx compIdx : Nat) (w : State S) : Option (State S) :=
  (diffusionCoefficientStep T I intQuants phaseIdx compIdx w).bind
    (effectiveDiffusionCoefficientStep T I intQuants phaseIdx compIdx)

/-- The body of the phase loop (source lines 133-142). -/
def phaseBody (T : TypeTag S E) (I : Nat) (intQuants : IntensiveQuantities E)
    (phaseIdx : Nat) (w : State S) : Option (State S) :=
  (tortuosityStep T I intQuants phaseIdx w).bind
    (forLoop T.numComponents (componentBody T I intQuants phaseIdx))

/-- The body of the loop over the local degrees of freedom (source lines 129-143). -/
def dofBody (T : TypeTag S E) (elemCtx : ElementContext E) (i : Nat) (w : State S) :
    Option (State S) :=
  forLoop T.numPhases
    (phaseBody T (elemCtx.globalSpaceIndex i 0) (elemCtx.intensiveQuantities i 0)) w

/-- `processElement(elemCtx)`. -/
def processElement (T : TypeTag S E) (elemCtx : ElementContext E) (w : State S) :
    Option (State S) :=
  if !w.params.enableVtkOutput then some w
  else forLoop (elemCtx.numPrimaryDof 0) (dofBody T elemCtx) w

/-- A sequence of `processElement` calls, one per element context, in order. -/
def processElements (T : TypeTag S E) (elemCtxs : List (ElementContext E)) (w : State S) :
    Option (State S) :=
  match elemCtxs with
  | [] => some w
  | elemCtx :: rest => (processElement T elemCtx w).bind (processElements T rest)

/-! ## commitBuffers (source lines 150-166) -/

/-- The call `commitPhaseBuffer_(baseWriter, name, buffer)`: the helper is in the
absent `BaseOutputModule`; the writer records the call. -/
def commitPhaseBuffer_ (baseWriter : BaseOutputWriter S) (name : String)
    (buffer : PhaseBuffer S) : BaseOutputWriter S :=
  { baseWriter with calls := baseWriter.calls ++ [CommitCall.phaseBuffer name buffer] }

/-- The call `commitPhaseComponentBuffer_(baseWriter, name, buffer)`: the helper is
in the absent `BaseOutputModule`; the writer records the call. -/
def commitPhaseComponentBuffer_ (baseWriter : BaseOutputWriter S) (name : String)
    (buffer : PhaseComponentBuffer S) : BaseOutputWriter S :=
  { baseWriter with calls := baseWriter.calls ++ [CommitCall.phaseComponentBuffer name buffer] }

/-- `commitBuffers(baseWriter)`: the state and the writer after the call. -/
def commitBuffers (baseWriter : BaseOutputWriter S) (w : State S) :
    State S × BaseOutputWriter S :=
  if !baseWriter.isVtkMultiWriter then (w, baseWriter)
  else
    let r1 := tortuosityOutput_ w
    let bw1 :=
      if r1.1 then commitPhaseBuffer_ baseWriter "tortuosity" r1.2.module.tortuosity_
      else baseWriter
    let r2 := diffusionCoefficientOutput_ r1.2
    let bw2 :=
      if r2.1 then
        commitPhaseComponentBuffer_ bw1 "diffusionCoefficient" r2.2.module.diffusionCoefficient_
      else bw1
    let r3 := effectiveDiffusionCoefficientOutput_ r2.2
    let bw3 :=
      if r3.1 then
        commitPhaseComponentBuffer_ bw2 "effectiveDiffusionCoefficient"
          r3.2.module.effectiveDiffusionCoefficient_
      else bw2
    (r3.2, bw3)

/-! ## Observations on a state -/

/-- The three flags as the accessors report them in a state. -/
structure Selection where
  tortuosity : Bool
  diffusionCoefficient : Bool
  effectiveDiffusionCoefficient : Bool
deriving DecidableEq, Repr

/-- The values the three accessors return when called in `w`. -/
def selection (w : State S) : Selection :=
  ⟨(tortuosityOutput_ w).1, (diffusionCoefficientOutput_ w).1,
    (effectiveDiffusionCoefficientOutput_ w).1⟩

/-- The element `buffer[p][J]`, when the buffer is allocated and has it. -/
def phaseEntry (buffer : PhaseBuffer S) (p J : Nat) : Option S :=
  buffer.bind (fun rows => rows[p]?.bind (fun row => row[J]?))

/-- The element `buffer[p][c][J]`, when the buffer is allocated and has it. -/
def phaseComponentEntry (buffer : PhaseComponentBuffer S) (p c J : Nat) : Option S :=
  buffer.bind (fun rows => rows[p]?.bind (fun comps => comps[c]?.bind (fun row => row[J]?)))

/-- The outer length and the inner lengths of a phase buffer. -/
def phaseShape (buffer : PhaseBuffer S) : Option (List Nat) :=
  buffer.map (fun rows => rows.map List.length)

/-- The outer, middle and inner lengths of a phase-component buffer. -/
def phaseComponentShape (buffer : PhaseComponentBuffer S) : Option (List (List Nat)) :=
  buffer.map (fun rows => rows.map (fun comps => comps.map List.length))

/-- The buffers have the shape `allocBuffers` gives them for `numDof` degrees of
freedom: every enabled quantity has a buffer with `numPhases` (times
`numComponents`) arrays of length `numDof`. -/
def Allocated (T : TypeTag S E) (numDof : Nat) (w : State S) : Prop :=
  ((selection w).tortuosity = true →
      phaseShape w.module.tortuosity_ = some (List.replicate T.numPhases numDof)) ∧
  ((selection w).diffusionCoefficient = true →
      phaseComponentShape w.module.diffusionCoefficient_ =
        some (List.replicate T.numPhases (List.replicate T.numComponents numDof))) ∧
  ((selection w).effectiveDiffusionCoefficient = true →
      phaseComponentShape w.module.effectiveDiffusionCoefficient_ =
        some (List.replicate T.numPhases (List.replicate T.numComponents numDof)))

instance (T : TypeTag S E) (numDof : Nat) (w : State S) : Decidable (Allocated T numDof w) := by
  unfold Allocated; infer_instance

/-- One commit per enabled quantity, in the order and under the names of
`commitBuffers`, each with the buffer the module holds in `w`. -/
def enabledCommits (w : State S) : List (CommitCall S) :=
  (if (selection w).tortuosity then
      [CommitCall.phaseBuffer "tortuosity" w.module.tortuosity_] else []) ++
  (if (selection w).diffusionCoefficient then
      [CommitCall.phaseComponentBuffer "diffusionCoefficient" w.module.diffusionCoefficient_]
    else []) ++
  (if (selection w).effectiveDiffusionCoefficient then
      [CommitCall.phaseComponentBuffer "effectiveDiffusionCoefficient"
        w.module.effectiveDiffusionCoefficient_]
    else [])

/-! ## Sequences of operations on one module -/

/-- What can happen to the state during a run: the configuration is changed, or
one of the three member functions is called. -/
inductive Operation (S E : Type) where
  | configure (params : ParameterStore)
  | alloc (numDof : Nat)
  | process (elemCtx : ElementContext E)
  | commit (baseWriter : BaseOutputWriter S)

/-- The state after one operation. -/
def Operation.run [Zero S] (T : TypeTag S E) : Operation S E → State S → Option (State S)
  | Operation.configure params, w => some { w with params := params }
  | Operation.alloc numDof, w => some (allocBuffers T numDof w)
  | Operation.process elemCtx, w => processElement T elemCtx w
  | Operation.commit baseWriter, w => some (commitBuffers baseWriter w).1

/-- The state after a sequence of operations. -/
def runAll [Zero S] (T : TypeTag S E) : List (Operation S E) → State S → Option (State S)
  | [], w => some w
  | op :: ops, w => (op.run T w).bind (runAll T ops)

/-- Two fallible state transformers give the same result in either order. -/
def Commutes {σ : Type} (f g : σ → Option σ) : Prop :=
  ∀ s, (f s).bind g = (g s).bind f

/-! ## The footprint of `processElement` -/

/-- The address of one buffer element. -/
inductive Cell where
  | tortuosity (p J : Nat)
  | diffusionCoefficient (p c J : Nat)
  | effectiveDiffusionCoefficient (p c J : Nat)
deriving DecidableEq, Repr

/-- The global index of an address. -/
def Cell.index : Cell → Nat
  | Cell.tortuosity _ J => J
  | Cell.diffusionCoefficient _ _ J => J
  | Cell.effectiveDiffusionCoefficient _ _ J => J

/-- The buffer element at an address, when it exists. -/
def entry (w : State S) : Cell → Option S
  | Cell.tortuosity p J => phaseEntry w.module.tortuosity_ p J
  | Cell.diffusionCoefficient p c J => phaseComponentEntry w.module.diffusionCoefficient_ p c J
  | Cell.effectiveDiffusionCoefficient p c J =>
    phaseComponentEntry w.module.effectiveDiffusionCoefficient_ p c J

/-- A set of writes (`none`: the element is not written); a later write to an
element replaces an earlier one. -/
def overwrite (later earlier : Cell → Option S) : Cell → Option S :=
  fun cell =>
    match later cell with
    | some v => some v
    | none => earlier cell

/-- The writes of the iterations `0, ..., n - 1`, in this order. -/
def accumulate (G : Nat → Cell → Option S) : Nat → Cell → Option S
  | 0 => fun _ => none
  | k + 1 => overwrite (G k) (accumulate G k)

/-- The write of source line 134 under the selection `φ`. -/
def tortuosityWrite (φ : Selection) (T : TypeTag S E) (I : Nat)
    (intQuants : IntensiveQuantities E) (phaseIdx : Nat) : Cell → Option S
  | Cell.tortuosity q J =>
    if φ.tortuosity = true ∧ q = phaseIdx ∧ J = I then
      some (T.value (intQuants.tortuosity phaseIdx))
    else none
  | _ => none

/-- The write of source lines 137-138 under the selection `φ`. -/
def diffusionCoefficientWrite (φ : Selection) (T : TypeTag S E) (I : Nat)
    (intQuants : IntensiveQuantities E) (phaseIdx compIdx : Nat) : Cell → Option S
  | Cell.diffusionCoefficient q d J =>
    if φ.diffusionCoefficient = true ∧ q = phaseIdx ∧ d = compIdx ∧ J = I then
      some (T.value (intQuants.diffusionCoefficient phaseIdx compIdx))
    else none
  | _ => none

/-- The write of source lines 140-141 under the selection `φ`. -/
def effectiveDiffusionCoefficientWrite (φ : Selection) (T : TypeTag S E) (I : Nat)
    (intQuants : IntensiveQuantities E) (phaseIdx compIdx : Nat) : Cell → Option S
  | Cell.effectiveDiffusionCoefficient q d J =>
    if φ.effectiveDiffusionCoefficient = true ∧ q = phaseIdx ∧ d = compIdx ∧ J = I then
      some (T.value (intQuants.effectiveDiffusionCoefficient phaseIdx compIdx))
    else none
  | _ => none

/-- The writes of one iteration of the component loop. -/
def componentWrites (φ : Selection) (T : TypeTag S E) (I : Nat)
    (intQuants : IntensiveQuantities E) (phaseIdx compIdx : Nat) : Cell → Option S :=
  overwrite (effectiveDiffusionCoefficientWrite φ T I intQuants phaseIdx compIdx)
    (diffusionCoefficientWrite φ T I intQuants phaseIdx compIdx)

/-- The writes of one iteration of the phase loop. -/
def phaseWrites (φ : Selection) (T : TypeTag S E) (I : Nat)
    (intQuants : IntensiveQuantities E) (phaseIdx : Nat) : Cell → Option S :=
  overwrite (accumulate (componentWrites φ T I intQuants phaseIdx) T.numComponents)
    (tortuosityWrite φ T I intQuants phaseIdx)

/-- The writes of one iteration of the loop over the local degrees of freedom. -/
def dofWrites (φ : Selection) (T : TypeTag S E) (elemCtx : ElementContext E) (i : Nat) :
    Cell → Option S :=
  accumulate (phaseWrites φ T (elemCtx.globalSpaceIndex i 0) (elemCtx.intensiveQuantities i 0))
    T.numPhases

/-- The writes of the whole loop of `processElement`. -/
def elementWrites (φ : Selection) (T : TypeTag S E) (elemCtx : ElementContext E) :
    Cell → Option S :=
  accumulate (dofWrites φ T elemCtx) (elemCtx.numPrimaryDof 0)

/-- The state `w'` is the state `w` after the writes `writes`: same parameters,
same selection, statics only initialised, same lengths everywhere, the buffers of
disabled quantities identical, and every element either written or kept. -/
structure Effect (writes : Cell → Option S) (w w' : State S) : Prop where
  params : w'.params = w.params
  sel : selection w' = selection w
  staticT : w'.statics.tortuosityVal = w.statics.tortuosityVal ∨
    w'.statics.tortuosityVal = some (selection w).tortuosity
  staticD : w'.statics.diffusionCoefficientVal = w.statics.diffusionCoefficientVal ∨
    w'.statics.diffusionCoefficientVal = some (selection w).diffusionCoefficient
  staticE :
    w'.statics.effectiveDiffusionCoefficientVal = w.statics.effectiveDiffusionCoefficientVal ∨
    w'.statics.effectiveDiffusionCoefficientVal =
      some (selection w).effectiveDiffusionCoefficient
  shapeT : phaseShape w'.module.tortuosity_ = phaseShape w.module.tortuosity_
  shapeD : phaseComponentShape w'.module.diffusionCoefficient_ =
    phaseComponentShape w.module.diffusionCoefficient_
  shapeE : phaseComponentShape w'.module.effectiveDiffusionCoefficient_ =
    phaseComponentShape w.module.effectiveDiffusionCoefficient_
  offT : (selection w).tortuosity = false → w'.module.tortuosity_ = w.module.tortuosity_
  offD : (selection w).diffusionCoefficient = false →
    w'.module.diffusionCoefficient_ = w.module.diffusionCoefficient_
  offE : (selection w).effectiveDiffusionCoefficient = false →
    w'.module.effectiveDiffusionCoefficient_ = w.module.effectiveDiffusionCoefficient_
  entries : ∀ cell, entry w' cell = overwrite writes (entry w) cell

end Code

/-! ## A small configuration for concrete evaluation -/

/-- Two phases, two components, integer scalars, `value` the identity. -/
def demoTag : TypeTag Int Int := ⟨2, 2, id⟩

/-- An element with three local degrees of freedom; the first and the last share
the global index 1, the second has global index 0. -/
def demoContext : ElementContext Int where
  numPrimaryDof := fun _ => 3
  globalSpaceIndex := fun i _ => if i = 1 then 0 else 1
  intensiveQuantities := fun i _ =>
    ⟨fun p => 100 + 10 * i + p, fun p c => 200 + 10 * i + 2 * p + c,
      fun p c => 300 + 10 * i + 2 * p + c⟩

/-- An element with one local degree of freedom, with global index 2. -/
def otherContext : ElementContext Int where
  numPrimaryDof := fun _ => 1
  globalSpaceIndex := fun _ _ => 2
  intensiveQuantities := fun _ _ => ⟨fun p => 7 + p, fun p c => 8 + p + c, fun p c => 9 + p + c⟩

/-- A new process with a new module: only the tortuosity and the effective
diffusion coefficients are requested. -/
def demoState (gate : Bool) : State Int :=
  ⟨⟨gate, true, false, true⟩, FlagStatics.unresolved, VtkDiffusionModule.fresh⟩

/-! # Properties -/

section Accessors

variable {S E : Type}

theorem selection_unresolved (params : ParameterStore) (m : VtkDiffusionModule S) :
    selection (⟨params, FlagStatics.unresolved, m⟩ : State S) =
      ⟨params.vtkWriteTortuosities, params.vtkWriteDiffusionCoefficients,
        params.vtkWriteEffectiveDiffusionCoefficients⟩ := rfl

/-- What `commitBuffers` does, for every writer and state. -/
theorem commitBuffers_eq (baseWriter : BaseOutputWriter S) (w : State S) :
    (commitBuffers baseWriter w).2 =
        ⟨baseWriter.isVtkMultiWriter,
          baseWriter.calls ++ (if baseWriter.isVtkMultiWriter then enabledCommits w else [])⟩ ∧
      (commitBuffers baseWriter w).1.module = w.module ∧
      (commitBuffers baseWriter w).1.params = w.params ∧
      selection (commitBuffers baseWriter w).1 = selection w := by
  rcases w with ⟨⟨g, pt, pd, pe⟩, ⟨st, sd, se⟩, ⟨bt, bd, be⟩⟩
  rcases baseWriter with ⟨k, cs⟩
  cases k <;> cases st <;> cases sd <;> cases se <;>
    simp [commitBuffers, enabledCommits, selection, tortuosityOutput_,
      diffusionCoefficientOutput_, effectiveDiffusionCoefficientOutput_,
      commitPhaseBuffer_, commitPhaseComponentBuffer_] <;>
    (repeat' split) <;> simp_all

theorem tortuosityOutput_fst (w : State S) :
    (tortuosityOutput_ w).1 = (selection w).tortuosity := rfl

theorem diffusionCoefficientOutput_fst (w : State S) :
    (diffusionCoefficientOutput_ w).1 = (selection w).diffusionCoefficient := rfl

theorem effectiveDiffusionCoefficientOutput_fst (w : State S) :
    (effectiveDiffusionCoefficientOutput_ w).1 = (selection w).effectiveDiffusionCoefficient := rfl

/-- A call of the tortuosity accessor stores its result in its static and changes
nothing else. -/
theorem tortuosityOutput_snd (w : State S) :
    (tortuosityOutput_ w).2 =
      ⟨w.params, { w.statics with tortuosityVal := some (selection w).tortuosity }, w.module⟩ := by
  rcases w with ⟨pr, ⟨st, sd, se⟩, m⟩
  cases st <;> simp [tortuosityOutput_, selection]

theorem diffusionCoefficientOutput_snd (w : State S) :
    (diffusionCoefficientOutput_ w).2 =
      ⟨w.params,
        { w.statics with diffusionCoefficientVal := some (selection w).diffusionCoefficient },
        w.module⟩ := by
  rcases w with ⟨pr, ⟨st, sd, se⟩, m⟩
  cases sd <;> simp [diffusionCoefficientOutput_, selection]

theorem effectiveDiffusionCoefficientOutput_snd (w : State S) :
    (effectiveDiffusionCoefficientOutput_ w).2 =
      ⟨w.params,
        { w.statics with
          effectiveDiffusionCoefficientVal := some (selection w).effectiveDiffusionCoefficient },
        w.module⟩ := by
  rcases w with ⟨pr, ⟨st, sd, se⟩, m⟩
  cases se <;> simp [effectiveDiffusionCoefficientOutput_, selection]

/-- The selection in closed form: the static when initialised, the parameter
otherwise. -/
theorem selection_eq (w : State S) :
    selection w =
      ⟨w.statics.tortuosityVal.getD w.params.vtkWriteTortuosities,
        w.statics.diffusionCoefficientVal.getD w.params.vtkWriteDiffusionCoefficients,
        w.statics.effectiveDiffusionCoefficientVal.getD
          w.params.vtkWriteEffectiveDiffusionCoefficients⟩ := by
  rcases w with ⟨pr, ⟨st, sd, se⟩, m⟩
  cases st <;> cases sd <;> cases se <;> rfl

/-- The selection depends on the parameters and the statics only. -/
theorem selection_module (pr : ParameterStore) (st : FlagStatics) (m m' : VtkDiffusionModule S) :
    selection (⟨pr, st, m⟩ : State S) = selection (⟨pr, st, m'⟩ : State S) := by
  simp [selection_eq]

/-- Storing the reported value of a flag in its static does not change what the
accessors report. -/
theorem selection_resolveT (w : State S) (m : VtkDiffusionModule S) :
    selection (⟨w.params, { w.statics with tortuosityVal := some (selection w).tortuosity }, m⟩ :
      State S) = selection w := by
  simp [selection_eq]

theorem selection_resolveD (w : State S) (m : VtkDiffusionModule S) :
    selection (⟨w.params,
      { w.statics with diffusionCoefficientVal := some (selection w).diffusionCoefficient }, m⟩ :
      State S) = selection w := by
  simp [selection_eq]

theorem selection_resolveE (w : State S) (m : VtkDiffusionModule S) :
    selection (⟨w.params,
      { w.statics with
        effectiveDiffusionCoefficientVal := some (selection w).effectiveDiffusionCoefficient },
      m⟩ : State S) = selection w := by
  simp [selection_eq]

/-- A static that is initialised determines what its accessor reports. -/
theorem selection_of_staticT (w : State S) (v : Bool) (h : w.statics.tortuosityVal = some v) :
    (selection w).tortuosity = v := by
  simp [selection, tortuosityOutput_, h]

theorem selection_of_staticD (w : State S) (v : Bool)
    (h : w.statics.diffusionCoefficientVal = some v) :
    (selection w).diffusionCoefficient = v := by
  simp [selection, diffusionCoefficientOutput_, h]

theorem selection_of_staticE (w : State S) (v : Bool)
    (h : w.statics.effectiveDiffusionCoefficientVal = some v) :
    (selection w).effectiveDiffusionCoefficient = v := by
  simp [selection, effectiveDiffusionCoefficientOutput_, h]

/-- The state `commitBuffers` leaves: with a capable writer the three statics are
initialised, nothing else changes. -/
theorem commitBuffers_state (baseWriter : BaseOutputWriter S) (w : State S) :
    (commitBuffers baseWriter w).1 =
      if baseWriter.isVtkMultiWriter = true then
        ⟨w.params,
          ⟨some (selection w).tortuosity, some (selection w).diffusionCoefficient,
            some (selection w).effectiveDiffusionCoefficient⟩, w.module⟩
      else w := by
  rcases w with ⟨⟨g, pt, pd, pe⟩, ⟨st, sd, se⟩, ⟨bt, bd, be⟩⟩
  rcases baseWriter with ⟨k, cs⟩
  cases k
  · simp [commitBuffers]
  · simp only [commitBuffers, tortuosityOutput_fst, tortuosityOutput_snd,
      diffusionCoefficientOutput_fst, diffusionCoefficientOutput_snd,
      effectiveDiffusionCoefficientOutput_fst, effectiveDiffusionCoefficientOutput_snd,
      selection_eq]
    simp

end Accessors

section Stores

variable {S : Type}

theorem updateAt_eq_some {α : Type} {k : Nat} {f : α → Option α} {xs ys : List α}
    (h : updateAt k f xs = some ys) :
    ∃ x y, xs[k]? = some x ∧ f x = some y ∧ ys = xs.set k y := by
  unfold updateAt at h
  cases hx : xs[k]? with
  | none => simp [hx] at h
  | some x =>
    simp only [hx, Option.map_eq_some'] at h
    obtain ⟨y, hy, rfl⟩ := h
    exact ⟨x, y, rfl, hy, rfl⟩

theorem storeScalar_eq_some {I : Nat} {v : S} {row row' : ScalarBuffer S}
    (h : storeScalar I v row = some row') : I < row.length ∧ row' = row.set I v := by
  unfold storeScalar at h
  split at h
  · exact ⟨by assumption, by simpa using h.symm⟩
  · simp at h

/-- A successful store into a phase buffer keeps all lengths and changes exactly
the element addressed. -/
theorem storePhase_eq_some {p I : Nat} {v : S} {b b' : PhaseBuffer S}
    (h : storePhase p I v b = some b') :
    phaseShape b' = phaseShape b ∧
      ∀ q J, phaseEntry b' q J = if q = p ∧ J = I then some v else phaseEntry b q J := by
  cases b with
  | none => simp [storePhase] at h
  | some rows =>
    simp only [storePhase, Option.map_eq_some'] at h
    obtain ⟨rows', hu, rfl⟩ := h
    obtain ⟨row, row', hrow, hs, rfl⟩ := updateAt_eq_some hu
    obtain ⟨hI, rfl⟩ := storeScalar_eq_some hs
    obtain ⟨hp, hpe⟩ := List.getElem?_eq_some.1 hrow
    constructor
    · simp only [phaseShape, Option.map_some', Option.some.injEq]
      apply List.ext_getElem?
      intro q
      by_cases hq : q = p
      · subst hq
        simp [List.getElem?_set, hp, hpe]
      · simp [List.getElem?_set, Ne.symm hq]
    · intro q J
      simp only [phaseEntry, Option.some_bind]
      by_cases hq : q = p
      · subst hq
        by_cases hJ : J = I
        · subst hJ
          simp [List.getElem?_set, hp, hI]
        · simp [List.getElem?_set, hp, hrow, hJ, Ne.symm hJ]
      · simp [List.getElem?_set, hq, Ne.symm hq]

/-- A successful store into a phase-component buffer keeps all lengths and changes
exactly the element addressed. -/
theorem storePhaseComponent_eq_some {p c I : Nat} {v : S} {b b' : PhaseComponentBuffer S}
    (h : storePhaseComponent p c I v b = some b') :
    phaseComponentShape b' = phaseComponentShape b ∧
      ∀ q d J, phaseComponentEntry b' q d J =
        if q = p ∧ d = c ∧ J = I then some v else phaseComponentEntry b q d J := by
  cases b with
  | none => simp [storePhaseComponent] at h
  | some rows =>
    simp only [storePhaseComponent, Option.map_eq_some'] at h
    obtain ⟨rows', hu, rfl⟩ := h
    obtain ⟨comps, comps', hcomps, hu2, rfl⟩ := updateAt_eq_some hu
    obtain ⟨row, row', hrow, hs, rfl⟩ := updateAt_eq_some hu2
    obtain ⟨hI, rfl⟩ := storeScalar_eq_some hs
    obtain ⟨hp, hpe⟩ := List.getElem?_eq_some.1 hcomps
    obtain ⟨hc, hce⟩ := List.getElem?_eq_some.1 hrow
    constructor
    · simp only [phaseComponentShape, Option.map_some', Option.some.injEq]
      apply List.ext_getElem?
      intro q
      by_cases hq : q = p
      · subst hq
        simp only [List.getElem?_map, List.getElem?_set, hp, hcomps, if_true, Option.map_some',
          Option.some.injEq]
        apply List.ext_getElem?
        intro d
        by_cases hd : d = c
        · subst hd
          simp [List.getElem?_set, hc, hce]
        · simp [List.getElem?_set, Ne.symm hd]
      · simp [List.getElem?_set, Ne.symm hq]
    · intro q d J
      simp only [phaseComponentEntry, Option.some_bind]
      by_cases hq : q = p
      · subst hq
        by_cases hd : d = c
        · subst hd
          by_cases hJ : J = I
          · subst hJ
            simp [List.getElem?_set, hp, hc, hI]
          · simp [List.getElem?_set, hp, hc, hcomps, hrow, hJ, Ne.symm hJ]
        · simp [List.getElem?_set, hp, hcomps, hd, Ne.symm hd]
      · simp [List.getElem?_set, hq, Ne.symm hq]

end Stores

section Effects

variable {S E : Type}

theorem overwrite_none (f : Cell → Option S) : overwrite (fun _ => none) f = f := by
  funext cell; simp [overwrite]

theorem overwrite_assoc (h g f : Cell → Option S) :
    overwrite (overwrite h g) f = overwrite h (overwrite g f) := by
  funext cell
  simp only [overwrite]
  cases h cell <;> simp

theorem Effect.refl (w : State S) : Effect (fun _ => none) w w where
  params := rfl
  sel := rfl
  staticT := Or.inl rfl
  staticD := Or.inl rfl
  staticE := Or.inl rfl
  shapeT := rfl
  shapeD := rfl
  shapeE := rfl
  offT := fun _ => rfl
  offD := fun _ => rfl
  offE := fun _ => rfl
  entries := fun cell => by simp [overwrite]

theorem Effect.trans {f g : Cell → Option S} {w w1 w2 : State S}
    (h1 : Effect f w w1) (h2 : Effect g w1 w2) : Effect (overwrite g f) w w2 where
  params := h2.params.trans h1.params
  sel := h2.sel.trans h1.sel
  staticT := by
    rcases h2.staticT with h | h
    · rcases h1.staticT with h' | h'
      · exact Or.inl (h.trans h')
      · exact Or.inr (h.trans h')
    · exact Or.inr (by rw [h, h1.sel])
  staticD := by
    rcases h2.staticD with h | h
    · rcases h1.staticD with h' | h'
      · exact Or.inl (h.trans h')
      · exact Or.inr (h.trans h')
    · exact Or.inr (by rw [h, h1.sel])
  staticE := by
    rcases h2.staticE with h | h
    · rcases h1.staticE with h' | h'
      · exact Or.inl (h.trans h')
      · exact Or.inr (h.trans h')
    · exact Or.inr (by rw [h, h1.sel])
  shapeT := h2.shapeT.trans h1.shapeT
  shapeD := h2.shapeD.trans h1.shapeD
  shapeE := h2.shapeE.trans h1.shapeE
  offT := fun h => (h2.offT (by rw [h1.sel]; exact h)).trans (h1.offT h)
  offD := fun h => (h2.offD (by rw [h1.sel]; exact h)).trans (h1.offD h)
  offE := fun h => (h2.offE (by rw [h1.sel]; exact h)).trans (h1.offE h)
  entries := fun cell => by
    rw [h2.entries cell, overwrite_assoc]
    simp only [overwrite]
    rw [h1.entries cell]
    simp only [overwrite]

/-- The loop rule: when every iteration has the effect `G k`, the loop has the
accumulated effect. -/
theorem forLoop_effect {body : Nat → State S → Option (State S)} {G : Nat → Cell → Option S}
    {φ : Selection} (n : Nat)
    (h : ∀ k, k < n → ∀ s s', selection s = φ → body k s = some s' → Effect (G k) s s') :
    ∀ s s', selection s = φ → forLoop n body s = some s' → Effect (accumulate G n) s s' := by
  induction n with
  | zero =>
    intro s s' _ hs
    simp only [forLoop, Option.some.injEq] at hs
    subst hs
    exact Effect.refl s
  | succ k ih =>
    intro s s' hφ hs
    simp only [forLoop, Option.bind_eq_some] at hs
    obtain ⟨s1, h1, h2⟩ := hs
    have e1 := ih (fun j hj => h j (Nat.lt_succ_of_lt hj)) s s1 hφ h1
    have e2 := h k (Nat.lt_succ_self k) s1 s' (e1.sel.trans hφ) h2
    exact e1.trans e2

theorem tortuosityStep_effect (T : TypeTag S E) (I : Nat) (iq : IntensiveQuantities E)
    (p : Nat) {w w' : State S} (h : tortuosityStep T I iq p w = some w') :
    Effect (tortuosityWrite (selection w) T I iq p) w w' := by
  unfold tortuosityStep at h
  simp only [tortuosityOutput_fst, tortuosityOutput_snd] at h
  cases hsel : (selection w).tortuosity with
  | false =>
    simp only [hsel, Bool.false_eq_true, if_false, Option.some.injEq] at h
    subst h
    refine ⟨rfl, ?_, Or.inr (by simp [hsel]), Or.inl rfl, Or.inl rfl, rfl, rfl, rfl,
      fun _ => rfl, fun _ => rfl, fun _ => rfl, ?_⟩
    · rw [← hsel]; exact selection_resolveT w w.module
    · intro cell
      cases cell <;> simp [overwrite, tortuosityWrite, hsel, entry]
  | true =>
    simp only [hsel, if_true, Option.map_eq_some'] at h
    obtain ⟨b, hb, rfl⟩ := h
    obtain ⟨hshape, hentry⟩ := storePhase_eq_some hb
    refine ⟨rfl, ?_, Or.inr (by simp [hsel]), Or.inl rfl, Or.inl rfl, hshape, rfl, rfl,
      fun h => by simp [hsel] at h, fun _ => rfl, fun _ => rfl, ?_⟩
    · rw [← hsel]; exact selection_resolveT w _
    · intro cell
      cases cell with
      | tortuosity q J =>
        simp only [entry, overwrite, tortuosityWrite, hsel, true_and]
        rw [hentry q J]
        split_ifs <;> rfl
      | diffusionCoefficient q d J => simp [overwrite, tortuosityWrite, entry]
      | effectiveDiffusionCoefficient q d J => simp [overwrite, tortuosityWrite, entry]

theorem diffusionCoefficientStep_effect (T : TypeTag S E) (I : Nat)
    (iq : IntensiveQuantities E) (p c : Nat) {w w' : State S}
    (h : diffusionCoefficientStep T I iq p c w = some w') :
    Effect (diffusionCoefficientWrite (selection w) T I iq p c) w w' := by
  unfold diffusionCoefficientStep at h
  simp only [diffusionCoefficientOutput_fst, diffusionCoefficientOutput_snd] at h
  cases hsel : (selection w).diffusionCoefficient with
  | false =>
    simp only [hsel, Bool.false_eq_true, if_false, Option.some.injEq] at h
    subst h
    refine ⟨rfl, ?_, Or.inl rfl, Or.inr (by simp [hsel]), Or.inl rfl, rfl, rfl, rfl,
      fun _ => rfl, fun _ => rfl, fun _ => rfl, ?_⟩
    · rw [← hsel]; exact selection_resolveD w w.module
    · intro cell
      cases cell <;> simp [overwrite, diffusionCoefficientWrite, hsel, entry]
  | true =>
    simp only [hsel, if_true, Option.map_eq_some'] at h
    obtain ⟨b, hb, rfl⟩ := h
    obtain ⟨hshape, hentry⟩ := storePhaseComponent_eq_some hb
    refine ⟨rfl, ?_, Or.inl rfl, Or.inr (by simp [hsel]), Or.inl rfl, rfl, hshape, rfl,
      fun _ => rfl, fun h => by simp [hsel] at h, fun _ => rfl, ?_⟩
    · rw [← hsel]; exact selection_resolveD w _
    · intro cell
      cases cell with
      | tortuosity q J => simp [overwrite, diffusionCoefficientWrite, entry]
      | diffusionCoefficient q d J =>
        simp only [entry, overwrite, diffusionCoefficientWrite, hsel, true_and]
        rw [hentry q d J]
        split_ifs <;> rfl
      | effectiveDiffusionCoefficient q d J =>
        simp [overwrite, diffusionCoefficientWrite, entry]

theorem effectiveDiffusionCoefficientStep_effect (T : TypeTag S E) (I : Nat)
    (iq : IntensiveQuantities E) (p c : Nat) {w w' : State S}
    (h : effectiveDiffusionCoefficientStep T I iq p c w = some w') :
    Effect (effectiveDiffusionCoefficientWrite (selection w) T I iq p c) w w' := by
  unfold effectiveDiffusionCoefficientStep at h
  simp only [effectiveDiffusionCoefficientOutput_fst,
    effectiveDiffusionCoefficientOutput_snd] at h
  cases hsel : (selection w).effectiveDiffusionCoefficient with
  | false =>
    simp only [hsel, Bool.false_eq_true, if_false, Option.some.injEq] at h
    subst h
    refine ⟨rfl, ?_, Or.inl rfl, Or.inl rfl, Or.inr (by simp [hsel]), rfl, rfl, rfl,
      fun _ => rfl, fun _ => rfl, fun _ => rfl, ?_⟩
    · rw [← hsel]; exact selection_resolveE w w.module
    · intro cell
      cases cell <;> simp [overwrite, effectiveDiffusionCoefficientWrite, hsel, entry]
  | true =>
    simp only [hsel, if_true, Option.map_eq_some'] at h
    obtain ⟨b, hb, rfl⟩ := h
    obtain ⟨hshape, hentry⟩ := storePhaseComponent_eq_some hb
    refine ⟨rfl, ?_, Or.inl rfl, Or.inl rfl, Or.inr (by simp [hsel]), rfl, rfl, hshape,
      fun _ => rfl, fun _ => rfl, fun h => by simp [hsel] at h, ?_⟩
    · rw [← hsel]; exact selection_resolveE w _
    · intro cell
      cases cell with
      | tortuosity q J => simp [overwrite, effectiveDiffusionCoefficientWrite, entry]
      | diffusionCoefficient q d J =>
        simp [overwrite, effectiveDiffusionCoefficientWrite, entry]
      | effectiveDiffusionCoefficient q d J =>
        simp only [entry, overwrite, effectiveDiffusionCoefficientWrite, hsel, true_and]
        rw [hentry q d J]
        split_ifs <;> rfl

theorem componentBody_effect (T : TypeTag S E) (I : Nat) (iq : IntensiveQuantities E)
    (p c : Nat) {w w' : State S} (h : componentBody T I iq p c w = some w') :
    Effect (componentWrites (selection w) T I iq p c) w w' := by
  simp only [componentBody, Option.bind_eq_some] at h
  obtain ⟨w1, h1, h2⟩ := h
  have e1 := diffusionCoefficientStep_effect T I iq p c h1
  have e2 := effectiveDiffusionCoefficientStep_effect T I iq p c h2
  rw [e1.sel] at e2
  exact e1.trans e2

theorem phaseBody_effect (T : TypeTag S E) (I : Nat) (iq : IntensiveQuantities E)
    (p : Nat) {w w' : State S} (h : phaseBody T I iq p w = some w') :
    Effect (phaseWrites (selection w) T I iq p) w w' := by
  simp only [phaseBody, Option.bind_eq_some] at h
  obtain ⟨w1, h1, h2⟩ := h
  have e1 := tortuosityStep_effect T I iq p h1
  have e2 := forLoop_effect T.numComponents
    (fun c _ s s' hs hb => by
      have e := componentBody_effect T I iq p c hb
      rw [hs] at e
      exact e) w1 w' e1.sel h2
  exact e1.trans e2

theorem dofBody_effect (T : TypeTag S E) (elemCtx : ElementContext E) (i : Nat)
    {w w' : State S} (h : dofBody T elemCtx i w = some w') :
    Effect (dofWrites (selection w) T elemCtx i) w w' :=
  forLoop_effect T.numPhases
    (fun p _ s s' hs hb => by
      have e := phaseBody_effect T _ _ p hb
      rw [hs] at e
      exact e) w w' rfl h

theorem elementLoop_effect (T : TypeTag S E) (elemCtx : ElementContext E) (n : Nat)
    {w w' : State S} (h : forLoop n (dofBody T elemCtx) w = some w') :
    Effect (accumulate (dofWrites (selection w) T elemCtx) n) w w' :=
  forLoop_effect n
    (fun i _ s s' hs hb => by
      have e := dofBody_effect T elemCtx i hb
      rw [hs] at e
      exact e) w w' rfl h

end Effects

section Writes

variable {S E : Type}

theorem accumulate_eq_none (G : Nat → Cell → Option S) (cell : Cell) (n : Nat)
    (h : ∀ k, k < n → G k cell = none) : accumulate G n cell = none := by
  induction n with
  | zero => rfl
  | succ k ih =>
    simp only [accumulate, overwrite, h k (Nat.lt_succ_self k)]
    exact ih (fun j hj => h j (Nat.lt_succ_of_lt hj))

/-- The last iteration that writes an element decides its value. -/
theorem accumulate_eq_last (G : Nat → Cell → Option S) (cell : Cell) (n k : Nat) (v : S)
    (hk : k < n) (hv : G k cell = some v) (h : ∀ j, k < j → j < n → G j cell = none) :
    accumulate G n cell = some v := by
  induction n with
  | zero => omega
  | succ m ih =>
    simp only [accumulate, overwrite]
    by_cases hkm : k = m
    · subst hkm
      simp [hv]
    · have hlt : k < m := by omega
      rw [h m hlt (Nat.lt_succ_self m)]
      exact ih hlt (fun j hj hjm => h j hj (Nat.lt_succ_of_lt hjm))

/-- When iteration `k` writes the element exactly if `P` holds and `d = k`, the
loop writes it exactly if `P` holds and `d` is below the bound. -/
theorem accumulate_diag (G : Nat → Cell → Option S) (cell : Cell) (P : Prop) [Decidable P]
    (d : Nat) (v : S) (h : ∀ k, G k cell = if P ∧ d = k then some v else none) (n : Nat) :
    accumulate G n cell = if P ∧ d < n then some v else none := by
  induction n with
  | zero => simp [accumulate]
  | succ m ih =>
    simp only [accumulate, overwrite, h m, ih]
    by_cases hP : P
    · by_cases hdm : d = m
      · subst hdm
        simp [hP]
      · by_cases hlt : d < m
        · have : d < m + 1 := by omega
          simp [hP, hdm, hlt, this]
        · have : ¬ d < m + 1 := by omega
          simp [hP, hdm, hlt, this]
    · simp [hP]

theorem phaseWrites_tortuosity (φ : Selection) (T : TypeTag S E) (I : Nat)
    (iq : IntensiveQuantities E) (p q J : Nat) :
    phaseWrites φ T I iq p (Cell.tortuosity q J) =
      if (φ.tortuosity = true ∧ J = I) ∧ q = p then some (T.value (iq.tortuosity q))
      else none := by
  have h0 : accumulate (componentWrites φ T I iq p) T.numComponents (Cell.tortuosity q J) =
      none :=
    accumulate_eq_none _ _ _ (fun c _ => by
      simp [componentWrites, overwrite, effectiveDiffusionCoefficientWrite,
        diffusionCoefficientWrite])
  simp only [phaseWrites, overwrite, h0, tortuosityWrite]
  by_cases hq : q = p
  · subst hq; simp [and_comm]
  · simp [hq]

theorem phaseWrites_diffusionCoefficient (φ : Selection) (T : TypeTag S E) (I : Nat)
    (iq : IntensiveQuantities E) (p q d J : Nat) :
    phaseWrites φ T I iq p (Cell.diffusionCoefficient q d J) =
      if (φ.diffusionCoefficient = true ∧ d < T.numComponents ∧ J = I) ∧ q = p then
        some (T.value (iq.diffusionCoefficient q d))
      else none := by
  have h0 := accumulate_diag (componentWrites φ T I iq p) (Cell.diffusionCoefficient q d J)
    (φ.diffusionCoefficient = true ∧ q = p ∧ J = I) d
    (T.value (iq.diffusionCoefficient p d))
    (fun c => by
      simp only [componentWrites, overwrite, effectiveDiffusionCoefficientWrite,
        diffusionCoefficientWrite]
      by_cases hd : d = c
      · subst hd; simp
      · simp [hd]) T.numComponents
  simp only [phaseWrites, overwrite, h0, tortuosityWrite]
  by_cases hq : q = p
  · subst hq
    by_cases h1 : φ.diffusionCoefficient = true <;> by_cases h2 : J = I <;>
      by_cases h3 : d < T.numComponents <;> simp [h1, h2, h3]
  · simp [hq]

theorem phaseWrites_effectiveDiffusionCoefficient (φ : Selection) (T : TypeTag S E) (I : Nat)
    (iq : IntensiveQuantities E) (p q d J : Nat) :
    phaseWrites φ T I iq p (Cell.effectiveDiffusionCoefficient q d J) =
      if (φ.effectiveDiffusionCoefficient = true ∧ d < T.numComponents ∧ J = I) ∧ q = p then
        some (T.value (iq.effectiveDiffusionCoefficient q d))
      else none := by
  have h0 := accumulate_diag (componentWrites φ T I iq p)
    (Cell.effectiveDiffusionCoefficient q d J)
    (φ.effectiveDiffusionCoefficient = true ∧ q = p ∧ J = I) d
    (T.value (iq.effectiveDiffusionCoefficient p d))
    (fun c => by
      simp only [componentWrites, overwrite, effectiveDiffusionCoefficientWrite,
        diffusionCoefficientWrite]
      by_cases hd : d = c
      · subst hd
        by_cases h1 : φ.effectiveDiffusionCoefficient = true <;> by_cases h2 : J = I <;>
          by_cases h3 : q = p <;> simp [h1, h2, h3]
      · by_cases h1 : φ.effectiveDiffusionCoefficient = true <;> by_cases h2 : J = I <;>
          by_cases h3 : q = p <;> simp [h1, h2, h3, hd]) T.numComponents
  simp only [phaseWrites, overwrite, h0, tortuosityWrite]
  by_cases hq : q = p
  · subst hq
    by_cases h1 : φ.effectiveDiffusionCoefficient = true <;> by_cases h2 : J = I <;>
      by_cases h3 : d < T.numComponents <;> simp [h1, h2, h3]
  · simp [hq]

/-- The tortuosity elements one local degree of freedom writes. -/
theorem dofWrites_tortuosity (φ : Selection) (T : TypeTag S E) (elemCtx : ElementContext E)
    (i q J : Nat) :
    dofWrites φ T elemCtx i (Cell.tortuosity q J) =
      if (φ.tortuosity = true ∧ J = elemCtx.globalSpaceIndex i 0) ∧ q < T.numPhases then
        some (T.value ((elemCtx.intensiveQuantities i 0).tortuosity q))
      else none :=
  accumulate_diag _ _ _ q _ (fun p => phaseWrites_tortuosity φ T _ _ p q J) T.numPhases

/-- The diffusion-coefficient elements one local degree of freedom writes. -/
theorem dofWrites_diffusionCoefficient (φ : Selection) (T : TypeTag S E)
    (elemCtx : ElementContext E) (i q d J : Nat) :
    dofWrites φ T elemCtx i (Cell.diffusionCoefficient q d J) =
      if (φ.diffusionCoefficient = true ∧ d < T.numComponents ∧
          J = elemCtx.globalSpaceIndex i 0) ∧ q < T.numPhases then
        some (T.value ((elemCtx.intensiveQuantities i 0).diffusionCoefficient q d))
      else none :=
  accumulate_diag _ _ _ q _ (fun p => phaseWrites_diffusionCoefficient φ T _ _ p q d J)
    T.numPhases

/-- The effective-diffusion-coefficient elements one local degree of freedom writes. -/
theorem dofWrites_effectiveDiffusionCoefficient (φ : Selection) (T : TypeTag S E)
    (elemCtx : ElementContext E) (i q d J : Nat) :
    dofWrites φ T elemCtx i (Cell.effectiveDiffusionCoefficient q d J) =
      if (φ.effectiveDiffusionCoefficient = true ∧ d < T.numComponents ∧
          J = elemCtx.globalSpaceIndex i 0) ∧ q < T.numPhases then
        some (T.value ((elemCtx.intensiveQuantities i 0).effectiveDiffusionCoefficient q d))
      else none :=
  accumulate_diag _ _ _ q _
    (fun p => phaseWrites_effectiveDiffusionCoefficient φ T _ _ p q d J) T.numPhases

/-- Among the local indices below `n` that share the global index of `i`, one is
the last. -/
theorem exists_last_index (f : Nat → Nat) (n i : Nat) (hi : i < n) :
    ∃ k, k < n ∧ f k = f i ∧ ∀ j, k < j → j < n → f j ≠ f k := by
  induction n with
  | zero => omega
  | succ m ih =>
    by_cases hm : f m = f i
    · exact ⟨m, Nat.lt_succ_self m, hm, fun j h1 h2 => by omega⟩
    · have him : i < m := by
        rcases Nat.lt_succ_iff_lt_or_eq.1 hi with h | h
        · exact h
        · subst h; exact absurd rfl hm
      obtain ⟨k, hk, hfk, hlast⟩ := ih him
      refine ⟨k, Nat.lt_succ_of_lt hk, hfk, fun j h1 h2 => ?_⟩
      by_cases hj : j = m
      · subst hj; rw [hfk]; exact hm
      · exact hlast j h1 (by omega)

/-- An element whose global index is not a global index of the element context is
not written. -/
theorem elementWrites_eq_none (φ : Selection) (T : TypeTag S E) (elemCtx : ElementContext E)
    (cell : Cell)
    (h : ∀ i, i < elemCtx.numPrimaryDof 0 → elemCtx.globalSpaceIndex i 0 ≠ cell.index) :
    elementWrites φ T elemCtx cell = none := by
  apply accumulate_eq_none
  intro i hi
  have hne := h i hi
  cases cell with
  | tortuosity q J =>
    rw [dofWrites_tortuosity]
    simp only [Cell.index] at hne
    simp [Ne.symm hne]
  | diffusionCoefficient q d J =>
    rw [dofWrites_diffusionCoefficient]
    simp only [Cell.index] at hne
    simp [Ne.symm hne]
  | effectiveDiffusionCoefficient q d J =>
    rw [dofWrites_effectiveDiffusionCoefficient]
    simp only [Cell.index] at hne
    simp [Ne.symm hne]

/-- The tortuosity written at the global index of the last local degree of freedom
with that index. -/
theorem elementWrites_tortuosity (φ : Selection) (T : TypeTag S E)
    (elemCtx : ElementContext E) (i p : Nat) (hφ : φ.tortuosity = true)
    (hi : i < elemCtx.numPrimaryDof 0)
    (hlast : ∀ j, i < j → j < elemCtx.numPrimaryDof 0 →
      elemCtx.globalSpaceIndex j 0 ≠ elemCtx.globalSpaceIndex i 0)
    (hp : p < T.numPhases) :
    elementWrites φ T elemCtx (Cell.tortuosity p (elemCtx.globalSpaceIndex i 0)) =
      some (T.value ((elemCtx.intensiveQuantities i 0).tortuosity p)) := by
  apply accumulate_eq_last _ _ _ i _ hi
  · rw [dofWrites_tortuosity]; simp [hφ, hp]
  · intro j hij hj
    rw [dofWrites_tortuosity]
    simp [Ne.symm (hlast j hij hj)]

theorem elementWrites_diffusionCoefficient (φ : Selection) (T : TypeTag S E)
    (elemCtx : ElementContext E) (i p c : Nat) (hφ : φ.diffusionCoefficient = true)
    (hi : i < elemCtx.numPrimaryDof 0)
    (hlast : ∀ j, i < j → j < elemCtx.numPrimaryDof 0 →
      elemCtx.globalSpaceIndex j 0 ≠ elemCtx.globalSpaceIndex i 0)
    (hp : p < T.numPhases) (hc : c < T.numComponents) :
    elementWrites φ T elemCtx
        (Cell.diffusionCoefficient p c (elemCtx.globalSpaceIndex i 0)) =
      some (T.value ((elemCtx.intensiveQuantities i 0).diffusionCoefficient p c)) := by
  apply accumulate_eq_last _ _ _ i _ hi
  · rw [dofWrites_diffusionCoefficient]; simp [hφ, hp, hc]
  · intro j hij hj
    rw [dofWrites_diffusionCoefficient]
    simp [Ne.symm (hlast j hij hj)]

theorem elementWrites_effectiveDiffusionCoefficient (φ : Selection) (T : TypeTag S E)
    (elemCtx : ElementContext E) (i p c : Nat)
    (hφ : φ.effectiveDiffusionCoefficient = true)
    (hi : i < elemCtx.numPrimaryDof 0)
    (hlast : ∀ j, i < j → j < elemCtx.numPrimaryDof 0 →
      elemCtx.globalSpaceIndex j 0 ≠ elemCtx.globalSpaceIndex i 0)
    (hp : p < T.numPhases) (hc : c < T.numComponents) :
    elementWrites φ T elemCtx
        (Cell.effectiveDiffusionCoefficient p c (elemCtx.globalSpaceIndex i 0)) =
      some (T.value ((elemCtx.intensiveQuantities i 0).effectiveDiffusionCoefficient p c)) := by
  apply accumulate_eq_last _ _ _ i _ hi
  · rw [dofWrites_effectiveDiffusionCoefficient]; simp [hφ, hp, hc]
  · intro j hij hj
    rw [dofWrites_effectiveDiffusionCoefficient]
    simp [Ne.symm (hlast j hij hj)]

end Writes

section Success

variable {S E : Type}

theorem storePhase_isSome {nP n p I : Nat} (v : S) {b : PhaseBuffer S}
    (hb : phaseShape b = some (List.replicate nP n)) (hp : p < nP) (hI : I < n) :
    ∃ b', storePhase p I v b = some b' := by
  cases b with
  | none => simp [phaseShape] at hb
  | some rows =>
    simp only [phaseShape, Option.map_some', Option.some.injEq] at hb
    have h1 : (rows.map List.length)[p]? = some n := by
      rw [hb]; simp [List.getElem?_replicate, hp]
    simp only [List.getElem?_map, Option.map_eq_some'] at h1
    obtain ⟨row, hrow, hlen⟩ := h1
    simp [storePhase, updateAt, hrow, storeScalar, hlen, hI]

theorem storePhaseComponent_isSome {nP nC n p c I : Nat} (v : S) {b : PhaseComponentBuffer S}
    (hb : phaseComponentShape b = some (List.replicate nP (List.replicate nC n)))
    (hp : p < nP) (hc : c < nC) (hI : I < n) :
    ∃ b', storePhaseComponent p c I v b = some b' := by
  cases b with
  | none => simp [phaseComponentShape] at hb
  | some rows =>
    simp only [phaseComponentShape, Option.map_some', Option.some.injEq] at hb
    have h1 : (rows.map (fun comps => comps.map List.length))[p]? =
        some (List.replicate nC n) := by
      rw [hb]; simp [List.getElem?_replicate, hp]
    simp only [List.getElem?_map, Option.map_eq_some'] at h1
    obtain ⟨comps, hcomps, hshape⟩ := h1
    have h2 : (comps.map List.length)[c]? = some n := by
      rw [hshape]; simp [List.getElem?_replicate, hc]
    simp only [List.getElem?_map, Option.map_eq_some'] at h2
    obtain ⟨row, hrow, hlen⟩ := h2
    simp [storePhaseComponent, updateAt, hcomps, hrow, storeScalar, hlen, hI]

/-- The loop rule for success: when every iteration succeeds on every state that
satisfies the invariant and keeps it, so does the loop. -/
theorem forLoop_succeeds {σ : Type} (Inv : σ → Prop) (body : Nat → σ → Option σ) (n : Nat)
    (h : ∀ k, k < n → ∀ s, Inv s → ∃ s', body k s = some s' ∧ Inv s') :
    ∀ s, Inv s → ∃ s', forLoop n body s = some s' ∧ Inv s' := by
  induction n with
  | zero => intro s hs; exact ⟨s, rfl, hs⟩
  | succ k ih =>
    intro s hs
    obtain ⟨s1, h1, hs1⟩ := ih (fun j hj => h j (Nat.lt_succ_of_lt hj)) s hs
    obtain ⟨s2, h2, hs2⟩ := h k (Nat.lt_succ_self k) s1 hs1
    exact ⟨s2, by simp [forLoop, h1, h2], hs2⟩

/-- An effect keeps the allocation shape. -/
theorem Effect.allocated {f : Cell → Option S} {w w' : State S} (T : TypeTag S E) (n : Nat)
    (h : Effect f w w') (ha : Allocated T n w) : Allocated T n w' := by
  obtain ⟨h1, h2, h3⟩ := ha
  refine ⟨fun hs => ?_, fun hs => ?_, fun hs => ?_⟩
  · rw [h.shapeT]; exact h1 (by rw [← h.sel]; exact hs)
  · rw [h.shapeD]; exact h2 (by rw [← h.sel]; exact hs)
  · rw [h.shapeE]; exact h3 (by rw [← h.sel]; exact hs)

theorem tortuosityStep_succeeds (T : TypeTag S E) (n I : Nat) (iq : IntensiveQuantities E)
    (p : Nat) (w : State S) (ha : Allocated T n w) (hp : p < T.numPhases) (hI : I < n) :
    ∃ w', tortuosityStep T I iq p w = some w' ∧ Allocated T n w' := by
  have key : ∃ w', tortuosityStep T I iq p w = some w' := by
    unfold tortuosityStep
    simp only [tortuosityOutput_fst, tortuosityOutput_snd]
    cases hsel : (selection w).tortuosity with
    | false => simp
    | true =>
      obtain ⟨b', hb'⟩ := storePhase_isSome (T.value (iq.tortuosity p)) (ha.1 hsel) hp hI
      simp [hb']
  obtain ⟨w', hw'⟩ := key
  exact ⟨w', hw', (tortuosityStep_effect T I iq p hw').allocated T n ha⟩

theorem diffusionCoefficientStep_succeeds (T : TypeTag S E) (n I : Nat)
    (iq : IntensiveQuantities E) (p c : Nat) (w : State S) (ha : Allocated T n w)
    (hp : p < T.numPhases) (hc : c < T.numComponents) (hI : I < n) :
    ∃ w', diffusionCoefficientStep T I iq p c w = some w' ∧ Allocated T n w' := by
  have key : ∃ w', diffusionCoefficientStep T I iq p c w = some w' := by
    unfold diffusionCoefficientStep
    simp only [diffusionCoefficientOutput_fst, diffusionCoefficientOutput_snd]
    cases hsel : (selection w).diffusionCoefficient with
    | false => simp
    | true =>
      obtain ⟨b', hb'⟩ := storePhaseComponent_isSome
        (T.value (iq.diffusionCoefficient p c)) (ha.2.1 hsel) hp hc hI
      simp [hb']
  obtain ⟨w', hw'⟩ := key
  exact ⟨w', hw', (diffusionCoefficientStep_effect T I iq p c hw').allocated T n ha⟩

theorem effectiveDiffusionCoefficientStep_succeeds (T : TypeTag S E) (n I : Nat)
    (iq : IntensiveQuantities E) (p c : Nat) (w : State S) (ha : Allocated T n w)
    (hp : p < T.numPhases) (hc : c < T.numComponents) (hI : I < n) :
    ∃ w', effectiveDiffusionCoefficientStep T I iq p c w = some w' ∧ Allocated T n w' := by
  have key : ∃ w', effectiveDiffusionCoefficientStep T I iq p c w = some w' := by
    unfold effectiveDiffusionCoefficientStep
    simp only [effectiveDiffusionCoefficientOutput_fst,
      effectiveDiffusionCoefficientOutput_snd]
    cases hsel : (selection w).effectiveDiffusionCoefficient with
    | false => simp
    | true =>
      obtain ⟨b', hb'⟩ := storePhaseComponent_isSome
        (T.value (iq.effectiveDiffusionCoefficient p c)) (ha.2.2 hsel) hp hc hI
      simp [hb']
  obtain ⟨w', hw'⟩ := key
  exact ⟨w', hw', (effectiveDiffusionCoefficientStep_effect T I iq p c hw').allocated T n ha⟩

theorem componentBody_succeeds (T : TypeTag S E) (n I : Nat) (iq : IntensiveQuantities E)
    (p c : Nat) (w : State S) (ha : Allocated T n w)
    (hp : p < T.numPhases) (hc : c < T.numComponents) (hI : I < n) :
    ∃ w', componentBody T I iq p c w = some w' ∧ Allocated T n w' := by
  obtain ⟨w1, h1, a1⟩ := diffusionCoefficientStep_succeeds T n I iq p c w ha hp hc hI
  obtain ⟨w2, h2, a2⟩ := effectiveDiffusionCoefficientStep_succeeds T n I iq p c w1 a1 hp hc hI
  exact ⟨w2, by simp [componentBody, h1, h2], a2⟩

theorem phaseBody_succeeds (T : TypeTag S E) (n I : Nat) (iq : IntensiveQuantities E)
    (p : Nat) (w : State S) (ha : Allocated T n w) (hp : p < T.numPhases) (hI : I < n) :
    ∃ w', phaseBody T I iq p w = some w' ∧ Allocated T n w' := by
  obtain ⟨w1, h1, a1⟩ := tortuosityStep_succeeds T n I iq p w ha hp hI
  obtain ⟨w2, h2, a2⟩ := forLoop_succeeds (Allocated T n) (componentBody T I iq p)
    T.numComponents (fun c hc s hs => componentBody_succeeds T n I iq p c s hs hp hc hI) w1 a1
  exact ⟨w2, by simp [phaseBody, h1, h2], a2⟩

theorem dofBody_succeeds (T : TypeTag S E) (n : Nat) (elemCtx : ElementContext E) (i : Nat)
    (w : State S) (ha : Allocated T n w) (hI : elemCtx.globalSpaceIndex i 0 < n) :
    ∃ w', dofBody T elemCtx i w = some w' ∧ Allocated T n w' :=
  forLoop_succeeds (Allocated T n) _ T.numPhases
    (fun p hp s hs => phaseBody_succeeds T n _ _ p s hs hp hI) w ha

/-- With allocated buffers and global indices below the DOF count,
`processElement` succeeds and keeps the buffers allocated. -/
theorem processElement_succeeds (T : TypeTag S E) (n : Nat) (elemCtx : ElementContext E)
    (w : State S) (ha : Allocated T n w)
    (hidx : ∀ i, i < elemCtx.numPrimaryDof 0 → elemCtx.globalSpaceIndex i 0 < n) :
    ∃ w', processElement T elemCtx w = some w' ∧ Allocated T n w' := by
  unfold processElement
  cases hg : w.params.enableVtkOutput with
  | false => exact ⟨w, by simp, ha⟩
  | true =>
    simp only [Bool.not_true, Bool.false_eq_true, if_false]
    exact forLoop_succeeds (Allocated T n) _ _
      (fun i hi s hs => dofBody_succeeds T n elemCtx i s hs (hidx i hi)) w ha

end Success

section Calls

variable {S E : Type}

/-- The effect of a successful `processElement`: nothing with the gate off, the
writes of the element loop with the gate on. -/
theorem processElement_effect (T : TypeTag S E) (elemCtx : ElementContext E) {w w' : State S}
    (h : processElement T elemCtx w = some w') :
    Effect (if w.params.enableVtkOutput = true then elementWrites (selection w) T elemCtx
      else fun _ => none) w w' := by
  unfold processElement at h
  cases hg : w.params.enableVtkOutput with
  | false =>
    simp only [hg, Bool.not_false, if_true, Option.some.injEq] at h
    subst h
    simpa using Effect.refl w
  | true =>
    simp only [hg, Bool.not_true, Bool.false_eq_true, if_false] at h
    simpa using elementLoop_effect T elemCtx _ h

/-- What a successful sequence of `processElement` calls keeps. -/
theorem processElements_keeps (T : TypeTag S E) (elemCtxs : List (ElementContext E)) :
    ∀ {w w' : State S}, processElements T elemCtxs w = some w' →
      ∃ f, Effect f w w' := by
  induction elemCtxs with
  | nil =>
    intro w w' h
    simp only [processElements, Option.some.injEq] at h
    subst h
    exact ⟨_, Effect.refl w⟩
  | cons c cs ih =>
    intro w w' h
    simp only [processElements, Option.bind_eq_some] at h
    obtain ⟨w1, h1, h2⟩ := h
    obtain ⟨f, hf⟩ := ih h2
    exact ⟨_, (processElement_effect T c h1).trans hf⟩

/-- What `allocBuffers` does, for every state: all three statics are initialised
and every enabled buffer is replaced by a zero buffer of the current size. -/
theorem allocBuffers_eq [Zero S] (T : TypeTag S E) (numDof : Nat) (w : State S) :
    allocBuffers T numDof w =
      ⟨w.params,
        ⟨some (selection w).tortuosity, some (selection w).diffusionCoefficient,
          some (selection w).effectiveDiffusionCoefficient⟩,
        ⟨if (selection w).tortuosity = true then
            some (List.replicate T.numPhases (List.replicate numDof 0))
          else w.module.tortuosity_,
          if (selection w).diffusionCoefficient = true then
            some (List.replicate T.numPhases
              (List.replicate T.numComponents (List.replicate numDof 0)))
          else w.module.diffusionCoefficient_,
          if (selection w).effectiveDiffusionCoefficient = true then
            some (List.replicate T.numPhases
              (List.replicate T.numComponents (List.replicate numDof 0)))
          else w.module.effectiveDiffusionCoefficient_⟩⟩ := by
  rcases w with ⟨⟨g, pt, pd, pe⟩, ⟨st, sd, se⟩, ⟨bt, bd, be⟩⟩
  simp only [allocBuffers, tortuosityOutput_fst, tortuosityOutput_snd,
    diffusionCoefficientOutput_fst, diffusionCoefficientOutput_snd,
    effectiveDiffusionCoefficientOutput_fst, effectiveDiffusionCoefficientOutput_snd,
    resizePhaseBuffer_, resizePhaseComponentBuffer_, selection_eq]
  generalize st.getD pt = a
  cases a <;> simp only [Bool.false_eq_true, if_false, if_true, Option.getD_some] <;>
    generalize sd.getD pd = b <;>
    cases b <;> simp only [Bool.false_eq_true, if_false, if_true, Option.getD_some] <;>
    generalize se.getD pe = c <;>
    cases c <;> simp only [Bool.false_eq_true, if_false, if_true, Option.getD_some]

theorem allocBuffers_selection [Zero S] (T : TypeTag S E) (numDof : Nat) (w : State S) :
    selection (allocBuffers T numDof w) = selection w := by
  rw [allocBuffers_eq]
  simp [selection_eq]

theorem allocBuffers_allocated [Zero S] (T : TypeTag S E) (numDof : Nat) (w : State S) :
    Allocated T numDof (allocBuffers T numDof w) := by
  unfold Allocated
  rw [allocBuffers_selection]
  rw [allocBuffers_eq]
  refine ⟨fun h => ?_, fun h => ?_, fun h => ?_⟩ <;>
    simp [h, phaseShape, phaseComponentShape]

end Calls

section Commutation

variable {S E : Type}

theorem Commutes.symm {σ : Type} {f g : σ → Option σ} (h : Commutes f g) : Commutes g f :=
  fun s => (h s).symm

theorem Commutes.bind_left {σ : Type} {f f' g : σ → Option σ} (h : Commutes f g)
    (h' : Commutes f' g) : Commutes (fun s => (f s).bind f') g := by
  intro s
  show ((f s).bind f').bind g = (g s).bind (fun s => (f s).bind f')
  have e1 : ((f s).bind f').bind g = (f s).bind (fun x => (g x).bind f') := by
    cases f s with
    | none => rfl
    | some x => exact h' x
  have e2 : (f s).bind (fun x => (g x).bind f') = ((f s).bind g).bind f' := by
    cases f s <;> rfl
  have e3 : ((g s).bind f).bind f' = (g s).bind (fun s => (f s).bind f') := by
    cases g s <;> rfl
  rw [e1, e2, h s, e3]

theorem Commutes.forLoop_left {σ : Type} {body : Nat → σ → Option σ} {g : σ → Option σ}
    (n : Nat) (h : ∀ k, k < n → Commutes (body k) g) : Commutes (forLoop n body) g := by
  induction n with
  | zero =>
    intro s
    show (some s).bind g = (g s).bind some
    simp
  | succ k ih =>
    exact Commutes.bind_left (ih (fun j hj => h j (Nat.lt_succ_of_lt hj)))
      (h k (Nat.lt_succ_self k))

theorem storeScalar_comm {I I' : Nat} (v v' : S) (hne : I ≠ I') (row : ScalarBuffer S) :
    (storeScalar I v row).bind (storeScalar I' v') =
      (storeScalar I' v' row).bind (storeScalar I v) := by
  unfold storeScalar
  by_cases h1 : I < row.length <;> by_cases h2 : I' < row.length <;>
    simp [h1, h2, List.set_comm v v' row hne]

theorem updateAt_comm {α : Type} {f g : α → Option α}
    (h : ∀ x, (f x).bind g = (g x).bind f) (k k' : Nat) (xs : List α) :
    (updateAt k f xs).bind (updateAt k' g) = (updateAt k' g xs).bind (updateAt k f) := by
  by_cases hk : k = k'
  · subst hk
    unfold updateAt
    cases hx : xs[k]? with
    | none => rfl
    | some x =>
      obtain ⟨hlt, -⟩ := List.getElem?_eq_some.1 hx
      have hx' := h x
      cases hf : f x <;> cases hg : g x <;>
        simp [hf, hg, hlt] at hx' ⊢
      · simp [← hx']
      · simp [hx']
      · simp [hx']
  · unfold updateAt
    cases hx : xs[k]? <;> cases hx' : xs[k']?
    · rfl
    · rename_i x'
      cases hg : g x' <;> simp [hg, List.getElem?_set_ne (Ne.symm hk), hx]
    · rename_i x
      cases hf : f x <;> simp [hf, List.getElem?_set_ne hk, hx']
    · rename_i x x'
      cases hf : f x <;> cases hg : g x' <;>
        simp [hf, hg, List.getElem?_set_ne hk, List.getElem?_set_ne (Ne.symm hk), hx, hx']
      exact List.set_comm _ _ xs hk

theorem storePhase_comm {I I' : Nat} (p p' : Nat) (v v' : S) (hne : I ≠ I')
    (b : PhaseBuffer S) :
    (storePhase p I v b).bind (storePhase p' I' v') =
      (storePhase p' I' v' b).bind (storePhase p I v) := by
  cases b with
  | none => rfl
  | some rows =>
    have h := updateAt_comm (storeScalar_comm v v' hne) p p' rows
    simp only [storePhase]
    cases h1 : updateAt p (storeScalar I v) rows <;>
      cases h2 : updateAt p' (storeScalar I' v') rows <;>
      simp [h1, h2, storePhase] at h ⊢
    · simp [← h]
    · simp [h]
    · simp [h]

theorem storePhaseComponent_comm {I I' : Nat} (p p' c c' : Nat) (v v' : S) (hne : I ≠ I')
    (b : PhaseComponentBuffer S) :
    (storePhaseComponent p c I v b).bind (storePhaseComponent p' c' I' v') =
      (storePhaseComponent p' c' I' v' b).bind (storePhaseComponent p c I v) := by
  cases b with
  | none => rfl
  | some rows =>
    have h := updateAt_comm (updateAt_comm (storeScalar_comm v v' hne) c c') p p' rows
    simp only [storePhaseComponent]
    cases h1 : updateAt p (updateAt c (storeScalar I v)) rows <;>
      cases h2 : updateAt p' (updateAt c' (storeScalar I' v')) rows <;>
      simp [h1, h2, storePhaseComponent] at h ⊢
    · simp [← h]
    · simp [h]
    · simp [h]

theorem tortuosityStep_comm_tortuosityStep (T : TypeTag S E) {I I' : Nat} (hne : I ≠ I')
    (iq iq' : IntensiveQuantities E) (p p' : Nat) :
    Commutes (tortuosityStep T I iq p) (tortuosityStep T I' iq' p') := by
  intro w
  rcases w with ⟨pr, ⟨st, sd, se⟩, ⟨bt, bd, be⟩⟩
  have h := storePhase_comm p p' (T.value (iq.tortuosity p)) (T.value (iq'.tortuosity p')) hne bt
  simp only [tortuosityStep, tortuosityOutput_fst, tortuosityOutput_snd, selection_eq]
  generalize st.getD pr.vtkWriteTortuosities = a
  cases a
  · simp
  · cases h1 : storePhase p I (T.value (iq.tortuosity p)) bt <;>
      cases h2 : storePhase p' I' (T.value (iq'.tortuosity p')) bt <;>
      simp [h1, h2] at h ⊢
    · simp [← h]
    · simp [h]
    · simp [h]

theorem diffusionCoefficientStep_comm_diffusionCoefficientStep (T : TypeTag S E) {I I' : Nat}
    (hne : I ≠ I') (iq iq' : IntensiveQuantities E) (p c p' c' : Nat) :
    Commutes (diffusionCoefficientStep T I iq p c)
      (diffusionCoefficientStep T I' iq' p' c') := by
  intro w
  rcases w with ⟨pr, ⟨st, sd, se⟩, ⟨bt, bd, be⟩⟩
  have h := storePhaseComponent_comm p p' c c' (T.value (iq.diffusionCoefficient p c))
    (T.value (iq'.diffusionCoefficient p' c')) hne bd
  simp only [diffusionCoefficientStep, diffusionCoefficientOutput_fst,
    diffusionCoefficientOutput_snd, selection_eq]
  generalize sd.getD pr.vtkWriteDiffusionCoefficients = a
  cases a
  · simp
  · cases h1 : storePhaseComponent p c I (T.value (iq.diffusionCoefficient p c)) bd <;>
      cases h2 : storePhaseComponent p' c' I' (T.value (iq'.diffusionCoefficient p' c')) bd <;>
      simp [h1, h2] at h ⊢
    · simp [← h]
    · simp [h]
    · simp [h]

theorem effectiveDiffusionCoefficientStep_comm_effectiveDiffusionCoefficientStep
    (T : TypeTag S E) {I I' : Nat} (hne : I ≠ I') (iq iq' : IntensiveQuantities E)
    (p c p' c' : Nat) :
    Commutes (effectiveDiffusionCoefficientStep T I iq p c)
      (effectiveDiffusionCoefficientStep T I' iq' p' c') := by
  intro w
  rcases w with ⟨pr, ⟨st, sd, se⟩, ⟨bt, bd, be⟩⟩
  have h := storePhaseComponent_comm p p' c c'
    (T.value (iq.effectiveDiffusionCoefficient p c))
    (T.value (iq'.effectiveDiffusionCoefficient p' c')) hne be
  simp only [effectiveDiffusionCoefficientStep, effectiveDiffusionCoefficientOutput_fst,
    effectiveDiffusionCoefficientOutput_snd, selection_eq]
  generalize se.getD pr.vtkWriteEffectiveDiffusionCoefficients = a
  cases a
  · simp
  · cases h1 : storePhaseComponent p c I (T.value (iq.effectiveDiffusionCoefficient p c)) be <;>
      cases h2 : storePhaseComponent p' c' I'
        (T.value (iq'.effectiveDiffusionCoefficient p' c')) be <;>
      simp [h1, h2] at h ⊢
    · simp [← h]
    · simp [h]
    · simp [h]

/-- Steps on different quantities commute, whatever they address. -/
theorem tortuosityStep_comm_diffusionCoefficientStep (T : TypeTag S E) (I I' : Nat)
    (iq iq' : IntensiveQuantities E) (p p' c' : Nat) :
    Commutes (tortuosityStep T I iq p) (diffusionCoefficientStep T I' iq' p' c') := by
  intro w
  rcases w with ⟨pr, ⟨st, sd, se⟩, ⟨bt, bd, be⟩⟩
  simp only [tortuosityStep, tortuosityOutput_fst, tortuosityOutput_snd,
    diffusionCoefficientStep, diffusionCoefficientOutput_fst,
    diffusionCoefficientOutput_snd, selection_eq]
  cases ha : st.getD pr.vtkWriteTortuosities <;>
    cases hb : sd.getD pr.vtkWriteDiffusionCoefficients <;>
    cases h1 : storePhase p I (T.value (iq.tortuosity p)) bt <;>
    cases h2 : storePhaseComponent p' c' I' (T.value (iq'.diffusionCoefficient p' c')) bd <;>
    simp [ha, hb, h1, h2]

theorem tortuosityStep_comm_effectiveDiffusionCoefficientStep (T : TypeTag S E) (I I' : Nat)
    (iq iq' : IntensiveQuantities E) (p p' c' : Nat) :
    Commutes (tortuosityStep T I iq p) (effectiveDiffusionCoefficientStep T I' iq' p' c') := by
  intro w
  rcases w with ⟨pr, ⟨st, sd, se⟩, ⟨bt, bd, be⟩⟩
  simp only [tortuosityStep, tortuosityOutput_fst, tortuosityOutput_snd,
    effectiveDiffusionCoefficientStep, effectiveDiffusionCoefficientOutput_fst,
    effectiveDiffusionCoefficientOutput_snd, selection_eq]
  cases ha : st.getD pr.vtkWriteTortuosities <;>
    cases hb : se.getD pr.vtkWriteEffectiveDiffusionCoefficients <;>
    cases h1 : storePhase p I (T.value (iq.tortuosity p)) bt <;>
    cases h2 : storePhaseComponent p' c' I'
      (T.value (iq'.effectiveDiffusionCoefficient p' c')) be <;>
    simp [ha, hb, h1, h2]

theorem diffusionCoefficientStep_comm_effectiveDiffusionCoefficientStep (T : TypeTag S E)
    (I I' : Nat) (iq iq' : IntensiveQuantities E) (p c p' c' : Nat) :
    Commutes (diffusionCoefficientStep T I iq p c)
      (effectiveDiffusionCoefficientStep T I' iq' p' c') := by
  intro w
  rcases w with ⟨pr, ⟨st, sd, se⟩, ⟨bt, bd, be⟩⟩
  simp only [diffusionCoefficientStep, diffusionCoefficientOutput_fst,
    diffusionCoefficientOutput_snd,
    effectiveDiffusionCoefficientStep, effectiveDiffusionCoefficientOutput_fst,
    effectiveDiffusionCoefficientOutput_snd, selection_eq]
  cases ha : sd.getD pr.vtkWriteDiffusionCoefficients <;>
    cases hb : se.getD pr.vtkWriteEffectiveDiffusionCoefficients <;>
    cases h1 : storePhaseComponent p c I (T.value (iq.diffusionCoefficient p c)) bd <;>
    cases h2 : storePhaseComponent p' c' I'
      (T.value (iq'.effectiveDiffusionCoefficient p' c')) be <;>
    simp [ha, hb, h1, h2]

/-- When the three kinds of step at the global index `I` commute with `g`, so does
the phase loop for `I`. -/
theorem phaseLoop_commutes (T : TypeTag S E) (I : Nat) (iq : IntensiveQuantities E)
    (g : State S → Option (State S))
    (hT : ∀ p, Commutes (tortuosityStep T I iq p) g)
    (hD : ∀ p c, Commutes (diffusionCoefficientStep T I iq p c) g)
    (hE : ∀ p c, Commutes (effectiveDiffusionCoefficientStep T I iq p c) g) :
    Commutes (forLoop T.numPhases (phaseBody T I iq)) g := by
  apply Commutes.forLoop_left
  intro p _
  have hc : Commutes (forLoop T.numComponents (componentBody T I iq p)) g := by
    apply Commutes.forLoop_left
    intro c _
    exact Commutes.bind_left (hD p c) (hE p c)
  exact Commutes.bind_left (hT p) hc

/-- The bodies of the DOF loop for different global indices commute. -/
theorem phaseLoop_comm (T : TypeTag S E) {I I' : Nat} (hne : I ≠ I')
    (iq iq' : IntensiveQuantities E) :
    Commutes (forLoop T.numPhases (phaseBody T I iq))
      (forLoop T.numPhases (phaseBody T I' iq')) := by
  apply phaseLoop_commutes
  · intro p
    exact (phaseLoop_commutes T I' iq' _
      (fun p' => tortuosityStep_comm_tortuosityStep T (Ne.symm hne) iq' iq p' p)
      (fun p' c' => (tortuosityStep_comm_diffusionCoefficientStep T I I' iq iq' p p' c').symm)
      (fun p' c' =>
        (tortuosityStep_comm_effectiveDiffusionCoefficientStep T I I' iq iq' p p' c').symm)).symm
  · intro p c
    exact (phaseLoop_commutes T I' iq' _
      (fun p' => tortuosityStep_comm_diffusionCoefficientStep T I' I iq' iq p' p c)
      (fun p' c' =>
        diffusionCoefficientStep_comm_diffusionCoefficientStep T (Ne.symm hne) iq' iq p' c' p c)
      (fun p' c' =>
        (diffusionCoefficientStep_comm_effectiveDiffusionCoefficientStep T I I' iq iq'
          p c p' c').symm)).symm
  · intro p c
    exact (phaseLoop_commutes T I' iq' _
      (fun p' => tortuosityStep_comm_effectiveDiffusionCoefficientStep T I' I iq' iq p' p c)
      (fun p' c' =>
        diffusionCoefficientStep_comm_effectiveDiffusionCoefficientStep T I' I iq' iq p' c' p c)
      (fun p' c' =>
        effectiveDiffusionCoefficientStep_comm_effectiveDiffusionCoefficientStep T
          (Ne.symm hne) iq' iq p' c' p c)).symm

/-- The element loops of two element contexts without a common global index
commute. -/
theorem elementLoop_comm (T : TypeTag S E) (a b : ElementContext E)
    (hdisj : ∀ i, i < a.numPrimaryDof 0 → ∀ j, j < b.numPrimaryDof 0 →
      a.globalSpaceIndex i 0 ≠ b.globalSpaceIndex j 0) :
    Commutes (forLoop (a.numPrimaryDof 0) (dofBody T a))
      (forLoop (b.numPrimaryDof 0) (dofBody T b)) := by
  apply Commutes.forLoop_left
  intro i hi
  apply Commutes.symm
  apply Commutes.forLoop_left
  intro j hj
  exact (phaseLoop_comm T (hdisj i hi j hj) _ _).symm

/-- Two `processElement` calls on element contexts without a common global index
give the same result in either order, failure included. -/
theorem processElement_comm (T : TypeTag S E) (a b : ElementContext E)
    (hdisj : ∀ i, i < a.numPrimaryDof 0 → ∀ j, j < b.numPrimaryDof 0 →
      a.globalSpaceIndex i 0 ≠ b.globalSpaceIndex j 0) :
    Commutes (processElement T a) (processElement T b) := by
  intro w
  cases hg : w.params.enableVtkOutput with
  | false => simp [processElement, hg]
  | true =>
    have key : ∀ (c d : ElementContext E),
        (processElement T c w).bind (processElement T d) =
          (forLoop (c.numPrimaryDof 0) (dofBody T c) w).bind
            (forLoop (d.numPrimaryDof 0) (dofBody T d)) := by
      intro c d
      have h0 : processElement T c w = forLoop (c.numPrimaryDof 0) (dofBody T c) w := by
        simp [processElement, hg]
      rw [h0]
      cases h1 : forLoop (c.numPrimaryDof 0) (dofBody T c) w with
      | none => rfl
      | some w1 =>
        have hp := (elementLoop_effect T c _ h1).params
        simp [processElement, hp, hg]
    rw [key a b, key b a]
    exact elementLoop_comm T a b hdisj w

end Commutation

section Runs

variable {S E : Type}

/-- An effect never changes a static that is initialised. -/
theorem Effect.statics_kept {f : Cell → Option S} {w w' : State S} (h : Effect f w w') :
    (∀ v, w.statics.tortuosityVal = some v → w'.statics.tortuosityVal = some v) ∧
      (∀ v, w.statics.diffusionCoefficientVal = some v →
        w'.statics.diffusionCoefficientVal = some v) ∧
      (∀ v, w.statics.effectiveDiffusionCoefficientVal = some v →
        w'.statics.effectiveDiffusionCoefficientVal = some v) := by
  refine ⟨fun v hv => ?_, fun v hv => ?_, fun v hv => ?_⟩
  · rcases h.staticT with h1 | h1
    · rw [h1, hv]
    · rw [h1, selection_of_staticT w v hv]
  · rcases h.staticD with h1 | h1
    · rw [h1, hv]
    · rw [h1, selection_of_staticD w v hv]
  · rcases h.staticE with h1 | h1
    · rw [h1, hv]
    · rw [h1, selection_of_staticE w v hv]

/-- No operation changes a static that is initialised. -/
theorem Operation.run_statics [Zero S] (T : TypeTag S E) (op : Operation S E) {w w' : State S}
    (h : op.run T w = some w') :
    (∀ v, w.statics.tortuosityVal = some v → w'.statics.tortuosityVal = some v) ∧
      (∀ v, w.statics.diffusionCoefficientVal = some v →
        w'.statics.diffusionCoefficientVal = some v) ∧
      (∀ v, w.statics.effectiveDiffusionCoefficientVal = some v →
        w'.statics.effectiveDiffusionCoefficientVal = some v) := by
  cases op with
  | configure params =>
    simp only [Operation.run, Option.some.injEq] at h
    subst h
    exact ⟨fun v hv => hv, fun v hv => hv, fun v hv => hv⟩
  | alloc numDof =>
    simp only [Operation.run, Option.some.injEq] at h
    subst h
    rw [allocBuffers_eq]
    refine ⟨fun v hv => ?_, fun v hv => ?_, fun v hv => ?_⟩
    · simp [selection_of_staticT w v hv]
    · simp [selection_of_staticD w v hv]
    · simp [selection_of_staticE w v hv]
  | process elemCtx =>
    simp only [Operation.run] at h
    exact (processElement_effect T elemCtx h).statics_kept
  | commit baseWriter =>
    simp only [Operation.run, Option.some.injEq] at h
    subst h
    rw [commitBuffers_state]
    by_cases hc : baseWriter.isVtkMultiWriter = true
    · simp only [hc, if_true]
      refine ⟨fun v hv => ?_, fun v hv => ?_, fun v hv => ?_⟩
      · simp [selection_of_staticT w v hv]
      · simp [selection_of_staticD w v hv]
      · simp [selection_of_staticE w v hv]
    · simp only [hc, if_false]
      exact ⟨fun v hv => hv, fun v hv => hv, fun v hv => hv⟩

/-- No sequence of operations changes a static that is initialised. -/
theorem runAll_statics [Zero S] (T : TypeTag S E) (ops : List (Operation S E)) :
    ∀ {w w' : State S}, runAll T ops w = some w' →
      (∀ v, w.statics.tortuosityVal = some v → w'.statics.tortuosityVal = some v) ∧
        (∀ v, w.statics.diffusionCoefficientVal = some v →
          w'.statics.diffusionCoefficientVal = some v) ∧
        (∀ v, w.statics.effectiveDiffusionCoefficientVal = some v →
          w'.statics.effectiveDiffusionCoefficientVal = some v) := by
  induction ops with
  | nil =>
    intro w w' h
    simp only [runAll, Option.some.injEq] at h
    subst h
    exact ⟨fun v hv => hv, fun v hv => hv, fun v hv => hv⟩
  | cons op ops ih =>
    intro w w' h
    simp only [runAll, Option.bind_eq_some] at h
    obtain ⟨w1, h1, h2⟩ := h
    obtain ⟨a1, a2, a3⟩ := Operation.run_statics T op h1
    obtain ⟨b1, b2, b3⟩ := ih h2
    exact ⟨fun v hv => b1 v (a1 v hv), fun v hv => b2 v (a2 v hv), fun v hv => b3 v (a3 v hv)⟩

end Runs

/-! # The claims -/

section Claims

variable {S E : Type}

/-- C1: after `allocBuffers` on a freshly constructed module, for every parameter
setting (the three flags and the gate), every state of the statics, every
`numPhases`, `numComponents` and `numDof`, a buffer exists if and only if its
accessor reports the flag enabled; an enabled tortuosity buffer is `numPhases`
arrays of `numDof` zeros, an enabled (effective) diffusion coefficient buffer is
`numPhases` times `numComponents` arrays of `numDof` zeros, a disabled buffer stays
unallocated; in a new process the flags reported are the parameters. -/
theorem allocBuffers_fresh_module [Zero S] (T : TypeTag S E) (numDof : Nat)
    (params : ParameterStore) (statics : FlagStatics) :
    let w : State S := ⟨params, statics, VtkDiffusionModule.fresh⟩
    let m := (allocBuffers T numDof w).module
    (m.tortuosity_.isSome = (selection w).tortuosity ∧
      m.diffusionCoefficient_.isSome = (selection w).diffusionCoefficient ∧
      m.effectiveDiffusionCoefficient_.isSome = (selection w).effectiveDiffusionCoefficient) ∧
    (m.tortuosity_ =
        if (selection w).tortuosity = true then
          some (List.replicate T.numPhases (List.replicate numDof 0))
        else none) ∧
    (m.diffusionCoefficient_ =
        if (selection w).diffusionCoefficient = true then
          some (List.replicate T.numPhases
            (List.replicate T.numComponents (List.replicate numDof 0)))
        else none) ∧
    (m.effectiveDiffusionCoefficient_ =
        if (selection w).effectiveDiffusionCoefficient = true then
          some (List.replicate T.numPhases
            (List.replicate T.numComponents (List.replicate numDof 0)))
        else none) ∧
    selection (⟨params, FlagStatics.unresolved, VtkDiffusionModule.fresh⟩ : State S) =
      ⟨params.vtkWriteTortuosities, params.vtkWriteDiffusionCoefficients,
        params.vtkWriteEffectiveDiffusionCoefficients⟩ := by
  intro w m
  have hm : m = (allocBuffers T numDof w).module := rfl
  rw [allocBuffers_eq] at hm
  simp only [hm]
  refine ⟨⟨?_, ?_, ?_⟩, rfl, rfl, rfl, rfl⟩
  · cases (selection w).tortuosity <;> simp [w, VtkDiffusionModule.fresh]
  · cases (selection w).diffusionCoefficient <;> simp [w, VtkDiffusionModule.fresh]
  · cases (selection w).effectiveDiffusionCoefficient <;> simp [w, VtkDiffusionModule.fresh]

/-- C3: with the global gate false, any number of `processElement` calls, for any
element contexts and any setting of the per-quantity flags, returns the state
unchanged: the three buffers are as before and no static has been initialised, so
no flag accessor was called. -/
theorem processElement_gate_off (T : TypeTag S E) (elemCtxs : List (ElementContext E))
    (w : State S) (hgate : w.params.enableVtkOutput = false) :
    processElements T elemCtxs w = some w ∧
      ∀ elemCtx : ElementContext E, processElement T elemCtx w = some w := by
  have h1 : ∀ elemCtx : ElementContext E, processElement T elemCtx w = some w := by
    intro elemCtx
    simp [processElement, hgate]
  refine ⟨?_, h1⟩
  induction elemCtxs with
  | nil => rfl
  | cons c cs ih => simp [processElements, h1 c, ih]

/-- C3 at a concrete input: two elements processed with the gate off after an allocation. -/
theorem processElement_gate_off_witness :
    processElements demoTag [demoContext, otherContext] (allocBuffers demoTag 3 (demoState false))
      = some (allocBuffers demoTag 3 (demoState false)) :=
  (processElement_gate_off demoTag [demoContext, otherContext]
    (allocBuffers demoTag 3 (demoState false)) (by decide)).1

/-- C4: `commitBuffers` with a writer that is a `VtkMultiWriter` adds to the calls
the writer has received exactly one commit per enabled quantity and none for a
disabled one, under the names "tortuosity", "diffusionCoefficient" and
"effectiveDiffusionCoefficient" in this order, each with the buffer the module
holds at the time of the call; the buffers and the parameters are as before. -/
theorem commitBuffers_capable (baseWriter : BaseOutputWriter S) (w : State S)
    (hcap : baseWriter.isVtkMultiWriter = true) :
    (commitBuffers baseWriter w).2.calls =
        baseWriter.calls ++
          ((if (selection w).tortuosity then
              [CommitCall.phaseBuffer "tortuosity" w.module.tortuosity_] else []) ++
            (if (selection w).diffusionCoefficient then
              [CommitCall.phaseComponentBuffer "diffusionCoefficient"
                w.module.diffusionCoefficient_] else []) ++
            (if (selection w).effectiveDiffusionCoefficient then
              [CommitCall.phaseComponentBuffer "effectiveDiffusionCoefficient"
                w.module.effectiveDiffusionCoefficient_] else [])) ∧
      (commitBuffers baseWriter w).1.module = w.module ∧
      (commitBuffers baseWriter w).1.params = w.params ∧
      selection (commitBuffers baseWriter w).1 = selection w := by
  obtain ⟨h1, h2, h3, h4⟩ := commitBuffers_eq baseWriter w
  refine ⟨?_, h2, h3, h4⟩
  rw [h1]
  simp [hcap, enabledCommits]

/-- C4 at a concrete input: a capable writer and a new module with two flags set. -/
theorem commitBuffers_capable_witness :
    (commitBuffers (⟨true, []⟩ : BaseOutputWriter Int) (demoState true)).2.calls =
      [CommitCall.phaseBuffer "tortuosity" none,
        CommitCall.phaseComponentBuffer "effectiveDiffusionCoefficient" none] :=
  (commitBuffers_capable (⟨true, []⟩ : BaseOutputWriter Int) (demoState true) rfl).1.trans
    (by decide)

/-- C5: `commitBuffers` with a writer that is not a `VtkMultiWriter` returns at
once: the writer has received no call and the state (buffers, statics, parameters)
is the one before, for every state. -/
theorem commitBuffers_not_capable (baseWriter : BaseOutputWriter S) (w : State S)
    (hcap : baseWriter.isVtkMultiWriter = false) :
    commitBuffers baseWriter w = (w, baseWriter) := by
  simp [commitBuffers, hcap]

/-- C5 at a concrete input: a writer of another kind. -/
theorem commitBuffers_not_capable_witness :
    commitBuffers (⟨false, []⟩ : BaseOutputWriter Int) (demoState true) =
      (demoState true, ⟨false, []⟩) :=
  commitBuffers_not_capable (⟨false, []⟩ : BaseOutputWriter Int) (demoState true) rfl

/-- C7, as stated, fails: with the global gate false, the tortuosity and effective
diffusion coefficient flags set and a capable writer, `commitBuffers` commits both
buffers as allocated. -/
theorem gate_off_still_commits :
    (allocBuffers demoTag 2 (demoState false)).params.enableVtkOutput = false ∧
      (processElement demoTag demoContext (allocBuffers demoTag 2 (demoState false))).map
          (fun w => (commitBuffers ⟨true, []⟩ w).2.calls) =
        some [CommitCall.phaseBuffer "tortuosity" (some [[0, 0], [0, 0]]),
          CommitCall.phaseComponentBuffer "effectiveDiffusionCoefficient"
            (some [[[0, 0], [0, 0]], [[0, 0], [0, 0]]])] := by
  decide

/-- C7, amended: with the global gate false, `processElement` changes nothing for
every setting of the per-quantity flags, and `commitBuffers` does not consult the
gate: a writer that is not a `VtkMultiWriter` receives no call, a `VtkMultiWriter`
receives one commit per enabled quantity with the buffer as the module holds it. -/
theorem commitBuffers_gate_off (T : TypeTag S E) (elemCtxs : List (ElementContext E))
    (baseWriter : BaseOutputWriter S) (w : State S)
    (hgate : w.params.enableVtkOutput = false) :
    processElements T elemCtxs w = some w ∧
      (commitBuffers baseWriter w).2.calls =
        baseWriter.calls ++
          (if baseWriter.isVtkMultiWriter then
            (if (selection w).tortuosity then
                [CommitCall.phaseBuffer "tortuosity" w.module.tortuosity_] else []) ++
              (if (selection w).diffusionCoefficient then
                [CommitCall.phaseComponentBuffer "diffusionCoefficient"
                  w.module.diffusionCoefficient_] else []) ++
              (if (selection w).effectiveDiffusionCoefficient then
                [CommitCall.phaseComponentBuffer "effectiveDiffusionCoefficient"
                  w.module.effectiveDiffusionCoefficient_] else [])
          else []) := by
  constructor
  · induction elemCtxs with
    | nil => rfl
    | cons c cs ih => simp [processElements, processElement, hgate, ih]
  · rw [(commitBuffers_eq baseWriter w).1]
    simp [enabledCommits]

/-- C7 (amended) at a concrete input: the gate off after an allocation. -/
theorem commitBuffers_gate_off_witness :
    processElements demoTag [demoContext] (allocBuffers demoTag 2 (demoState false)) =
      some (allocBuffers demoTag 2 (demoState false)) :=
  (commitBuffers_gate_off demoTag [demoContext] (⟨true, []⟩ : BaseOutputWriter Int)
    (allocBuffers demoTag 2 (demoState false)) (by decide)).1

/-- C2: with the global gate true, the buffers allocated for `numDof` and every
global index of the element below `numDof`, `processElement` returns a state in
which every global index of the element has a last local DOF, and for every local
DOF `i` that is the last one with its global index `I`, every phase `p` and every
component `c`, each enabled buffer holds at `[p][I]` (`[p][c][I]`) the value
(`Toolbox::value`) of the tortuosity (diffusion coefficient, effective diffusion
coefficient) of the intensive quantities of `i`, so a later write to a global
index replaces an earlier one; the buffer of a disabled quantity is the one before
the call. -/
theorem processElement_last_write (T : TypeTag S E) (numDof : Nat)
    (elemCtx : ElementContext E) (w : State S)
    (hgate : w.params.enableVtkOutput = true) (halloc : Allocated T numDof w)
    (hidx : ∀ i, i < elemCtx.numPrimaryDof 0 → elemCtx.globalSpaceIndex i 0 < numDof) :
    ∃ w', processElement T elemCtx w = some w' ∧
      (∀ i, i < elemCtx.numPrimaryDof 0 →
        ∃ k, k < elemCtx.numPrimaryDof 0 ∧
          elemCtx.globalSpaceIndex k 0 = elemCtx.globalSpaceIndex i 0 ∧
          ∀ j, k < j → j < elemCtx.numPrimaryDof 0 →
            elemCtx.globalSpaceIndex j 0 ≠ elemCtx.globalSpaceIndex k 0) ∧
      (∀ i, i < elemCtx.numPrimaryDof 0 →
        (∀ j, i < j → j < elemCtx.numPrimaryDof 0 →
          elemCtx.globalSpaceIndex j 0 ≠ elemCtx.globalSpaceIndex i 0) →
        ∀ p, p < T.numPhases →
          ((selection w).tortuosity = true →
            phaseEntry w'.module.tortuosity_ p (elemCtx.globalSpaceIndex i 0) =
              some (T.value ((elemCtx.intensiveQuantities i 0).tortuosity p))) ∧
          ∀ c, c < T.numComponents →
            ((selection w).diffusionCoefficient = true →
              phaseComponentEntry w'.module.diffusionCoefficient_ p c
                  (elemCtx.globalSpaceIndex i 0) =
                some (T.value ((elemCtx.intensiveQuantities i 0).diffusionCoefficient p c))) ∧
            ((selection w).effectiveDiffusionCoefficient = true →
              phaseComponentEntry w'.module.effectiveDiffusionCoefficient_ p c
                  (elemCtx.globalSpaceIndex i 0) =
                some (T.value
                  ((elemCtx.intensiveQuantities i 0).effectiveDiffusionCoefficient p c)))) ∧
      ((selection w).tortuosity = false → w'.module.tortuosity_ = w.module.tortuosity_) ∧
      ((selection w).diffusionCoefficient = false →
        w'.module.diffusionCoefficient_ = w.module.diffusionCoefficient_) ∧
      ((selection w).effectiveDiffusionCoefficient = false →
        w'.module.effectiveDiffusionCoefficient_ = w.module.effectiveDiffusionCoefficient_) := by
  obtain ⟨w', hw', -⟩ := processElement_succeeds T numDof elemCtx w halloc hidx
  have e := processElement_effect T elemCtx hw'
  simp only [hgate, if_true] at e
  refine ⟨w', hw',
    fun i hi => exists_last_index (fun k => elemCtx.globalSpaceIndex k 0) _ i hi,
    ?_, e.offT, e.offD, e.offE⟩
  intro i hi hlast p hp
  refine ⟨fun hφ => ?_, fun c hc => ⟨fun hφ => ?_, fun hφ => ?_⟩⟩
  · have h := e.entries (Cell.tortuosity p (elemCtx.globalSpaceIndex i 0))
    simp only [overwrite, elementWrites_tortuosity _ T elemCtx i p hφ hi hlast hp] at h
    exact h
  · have h := e.entries (Cell.diffusionCoefficient p c (elemCtx.globalSpaceIndex i 0))
    simp only [overwrite,
      elementWrites_diffusionCoefficient _ T elemCtx i p c hφ hi hlast hp hc] at h
    exact h
  · have h := e.entries (Cell.effectiveDiffusionCoefficient p c (elemCtx.globalSpaceIndex i 0))
    simp only [overwrite,
      elementWrites_effectiveDiffusionCoefficient _ T elemCtx i p c hφ hi hlast hp hc] at h
    exact h

/-- C2 at a concrete input: local DOFs 0 and 2 share the global index 1, and the values of
DOF 2 are the ones found there. -/
theorem processElement_last_write_witness :
    ∃ w', processElement demoTag demoContext (allocBuffers demoTag 2 (demoState true)) = some w' ∧
      phaseEntry w'.module.tortuosity_ 1 1 = some 121 ∧
      phaseComponentEntry w'.module.effectiveDiffusionCoefficient_ 1 0 0 = some 312 ∧
      w'.module.diffusionCoefficient_ = none := by
  obtain ⟨w', h, -, hlast, -, hD, -⟩ :=
    processElement_last_write demoTag 2 demoContext (allocBuffers demoTag 2 (demoState true))
      (by decide) (by decide) (by decide)
  have last2 : ∀ j, 2 < j → j < demoContext.numPrimaryDof 0 →
      demoContext.globalSpaceIndex j 0 ≠ demoContext.globalSpaceIndex 2 0 := by
    intro j h1 h2
    simp only [demoContext] at h2
    omega
  have last1 : ∀ j, 1 < j → j < demoContext.numPrimaryDof 0 →
      demoContext.globalSpaceIndex j 0 ≠ demoContext.globalSpaceIndex 1 0 := by
    intro j h1 h2
    simp only [demoContext] at h2
    have hj : j = 2 := by omega
    subst hj
    decide
  exact ⟨w', h, ((hlast 2 (by decide) last2 1 (by decide)).1 (by decide)),
    (((hlast 1 (by decide) last1 1 (by decide)).2 0 (by decide)).2 (by decide)),
    hD (by decide)⟩

/-- C8: after `allocBuffers` for `numDof` degrees of freedom, every sequence of
`processElement` calls on element contexts whose global indices are all below
`numDof` returns a state: no call indexes a buffer out of range or indexes an
unallocated buffer (either would be the result `none`); the buffers stay allocated
for `numDof`, and the buffer of a disabled quantity is the one `allocBuffers` left. -/
theorem processElements_in_range [Zero S] (T : TypeTag S E) (numDof : Nat)
    (elemCtxs : List (ElementContext E)) (w : State S)
    (hidx : ∀ elemCtx ∈ elemCtxs, ∀ i, i < elemCtx.numPrimaryDof 0 →
      elemCtx.globalSpaceIndex i 0 < numDof) :
    ∃ w', processElements T elemCtxs (allocBuffers T numDof w) = some w' ∧
      Allocated T numDof w' ∧
      ((selection w).tortuosity = false → w'.module.tortuosity_ = w.module.tortuosity_) ∧
      ((selection w).diffusionCoefficient = false →
        w'.module.diffusionCoefficient_ = w.module.diffusionCoefficient_) ∧
      ((selection w).effectiveDiffusionCoefficient = false →
        w'.module.effectiveDiffusionCoefficient_ = w.module.effectiveDiffusionCoefficient_) := by
  have key : ∀ (cs : List (ElementContext E)) (s : State S), Allocated T numDof s →
      (∀ elemCtx ∈ cs, ∀ i, i < elemCtx.numPrimaryDof 0 →
        elemCtx.globalSpaceIndex i 0 < numDof) →
      ∃ s', processElements T cs s = some s' ∧ Allocated T numDof s' := by
    intro cs
    induction cs with
    | nil => intro s hs _; exact ⟨s, rfl, hs⟩
    | cons c cs ih =>
      intro s hs hcs
      obtain ⟨s1, h1, a1⟩ := processElement_succeeds T numDof c s hs
        (hcs c (List.mem_cons_self c cs))
      obtain ⟨s2, h2, a2⟩ := ih s1 a1 (fun d hd => hcs d (List.mem_cons_of_mem c hd))
      exact ⟨s2, by simp [processElements, h1, h2], a2⟩
  obtain ⟨w', hw', ha⟩ := key elemCtxs _ (allocBuffers_allocated T numDof w) hidx
  obtain ⟨f, e⟩ := processElements_keeps T elemCtxs hw'
  have hsel := allocBuffers_selection T numDof w
  refine ⟨w', hw', ha, fun h => ?_, fun h => ?_, fun h => ?_⟩
  · rw [e.offT (by rw [hsel]; exact h), allocBuffers_eq]; simp [h]
  · rw [e.offD (by rw [hsel]; exact h), allocBuffers_eq]; simp [h]
  · rw [e.offE (by rw [hsel]; exact h), allocBuffers_eq]; simp [h]

/-- C8 at a concrete input: three calls on buffers allocated for three DOFs. -/
theorem processElements_in_range_witness :
    ∃ w', processElements demoTag [demoContext, otherContext, demoContext]
        (allocBuffers demoTag 3 (demoState true)) = some w' ∧
      w'.module.diffusionCoefficient_ = none := by
  obtain ⟨w', h, -, -, hD, -⟩ :=
    processElements_in_range demoTag 3 [demoContext, otherContext, demoContext]
      (demoState true) (by decide)
  exact ⟨w', h, hD (by decide)⟩

/-- C9: for a state `w` reached from a fresh module by `allocBuffers` and any
sequence of `processElement` calls, the flags are still the ones the accessors
report in the initial state (the parameters, when no static was initialised), and
`allocBuffers` with a DOF count `n'` (equal, larger or smaller) replaces the
buffers: every quantity enabled in the initial state has `numPhases` (times
`numComponents`) arrays of length exactly `n'`, every element zero, so no value
written before survives and no index at or beyond `n'` exists; every disabled
quantity is unallocated; these are the buffers `allocBuffers` with `n'` gives on a
fresh module.  On every state `allocBuffers` replaces each enabled buffer by the
zero buffer of the current size, keeps each disabled one and keeps the flags, and
applied twice with the same argument it is `allocBuffers` applied once. -/
theorem allocBuffers_again [Zero S] (T : TypeTag S E) (n n' : Nat) (params : ParameterStore)
    (statics : FlagStatics) (elemCtxs : List (ElementContext E)) (w : State S)
    (hreach : processElements T elemCtxs
      (allocBuffers T n ⟨params, statics, VtkDiffusionModule.fresh⟩) = some w) :
    (selection w = selection (⟨params, statics, VtkDiffusionModule.fresh⟩ : State S) ∧
      (statics = FlagStatics.unresolved →
        selection w = ⟨params.vtkWriteTortuosities, params.vtkWriteDiffusionCoefficients,
          params.vtkWriteEffectiveDiffusionCoefficients⟩)) ∧
      (allocBuffers T n' w).module =
        ⟨if (selection (⟨params, statics, VtkDiffusionModule.fresh⟩ : State S)).tortuosity
              = true then
            some (List.replicate T.numPhases (List.replicate n' 0))
          else none,
          if (selection
              (⟨params, statics, VtkDiffusionModule.fresh⟩ : State S)).diffusionCoefficient
              = true then
            some (List.replicate T.numPhases
              (List.replicate T.numComponents (List.replicate n' 0)))
          else none,
          if (selection (⟨params, statics, VtkDiffusionModule.fresh⟩ :
              State S)).effectiveDiffusionCoefficient = true then
            some (List.replicate T.numPhases
              (List.replicate T.numComponents (List.replicate n' 0)))
          else none⟩ ∧
      ((∀ p J, phaseEntry (allocBuffers T n' w).module.tortuosity_ p J =
          if (selection (⟨params, statics, VtkDiffusionModule.fresh⟩ : State S)).tortuosity
              = true ∧ p < T.numPhases ∧ J < n' then some 0 else none) ∧
        (∀ p c J, phaseComponentEntry (allocBuffers T n' w).module.diffusionCoefficient_ p c J =
          if (selection (⟨params, statics, VtkDiffusionModule.fresh⟩ :
              State S)).diffusionCoefficient = true ∧
              p < T.numPhases ∧ c < T.numComponents ∧ J < n' then some 0 else none) ∧
        (∀ p c J,
          phaseComponentEntry (allocBuffers T n' w).module.effectiveDiffusionCoefficient_ p c J =
          if (selection (⟨params, statics, VtkDiffusionModule.fresh⟩ :
              State S)).effectiveDiffusionCoefficient = true ∧
              p < T.numPhases ∧ c < T.numComponents ∧ J < n' then some 0 else none)) ∧
      (allocBuffers T n' w).module =
        (allocBuffers T n' ⟨params, statics, VtkDiffusionModule.fresh⟩).module ∧
      ∀ w1 : State S,
        (allocBuffers T n' w1).module =
            ⟨if (selection w1).tortuosity = true then
                some (List.replicate T.numPhases (List.replicate n' 0))
              else w1.module.tortuosity_,
              if (selection w1).diffusionCoefficient = true then
                some (List.replicate T.numPhases
                  (List.replicate T.numComponents (List.replicate n' 0)))
              else w1.module.diffusionCoefficient_,
              if (selection w1).effectiveDiffusionCoefficient = true then
                some (List.replicate T.numPhases
                  (List.replicate T.numComponents (List.replicate n' 0)))
              else w1.module.effectiveDiffusionCoefficient_⟩ ∧
          selection (allocBuffers T n' w1) = selection w1 ∧
          allocBuffers T n' (allocBuffers T n' w1) = allocBuffers T n' w1 := by
  obtain ⟨f, e⟩ := processElements_keeps T elemCtxs hreach
  have hsel0 := allocBuffers_selection T n (⟨params, statics, VtkDiffusionModule.fresh⟩ : State S)
  have hsel : selection w = selection (⟨params, statics, VtkDiffusionModule.fresh⟩ : State S) :=
    e.sel.trans hsel0
  have hT : (selection w).tortuosity = false → w.module.tortuosity_ = none := by
    intro h
    rw [e.offT (by rw [← e.sel]; exact h), allocBuffers_eq]
    rw [hsel] at h
    simp only [h, Bool.false_eq_true, if_false]
    rfl
  have hD : (selection w).diffusionCoefficient = false →
      w.module.diffusionCoefficient_ = none := by
    intro h
    rw [e.offD (by rw [← e.sel]; exact h), allocBuffers_eq]
    rw [hsel] at h
    simp only [h, Bool.false_eq_true, if_false]
    rfl
  have hE : (selection w).effectiveDiffusionCoefficient = false →
      w.module.effectiveDiffusionCoefficient_ = none := by
    intro h
    rw [e.offE (by rw [← e.sel]; exact h), allocBuffers_eq]
    rw [hsel] at h
    simp only [h, Bool.false_eq_true, if_false]
    rfl
  have main : (allocBuffers T n' w).module =
      ⟨if (selection w).tortuosity = true then
          some (List.replicate T.numPhases (List.replicate n' 0))
        else none,
        if (selection w).diffusionCoefficient = true then
          some (List.replicate T.numPhases
            (List.replicate T.numComponents (List.replicate n' 0)))
        else none,
        if (selection w).effectiveDiffusionCoefficient = true then
          some (List.replicate T.numPhases
            (List.replicate T.numComponents (List.replicate n' 0)))
        else none⟩ := by
    rw [allocBuffers_eq]
    cases h1 : (selection w).tortuosity <;> cases h2 : (selection w).diffusionCoefficient <;>
      cases h3 : (selection w).effectiveDiffusionCoefficient <;>
      simp [hT, hD, hE, h1, h2, h3]
  rw [hsel] at main
  refine ⟨⟨hsel, ?_⟩, main, ⟨?_, ?_, ?_⟩, ?_, ?_⟩
  · intro hs
    rw [hsel, hs]
    rfl
  · intro p J
    rw [main]
    by_cases h1 : (selection (⟨params, statics, VtkDiffusionModule.fresh⟩ : State S)).tortuosity
        = true <;> by_cases hp : p < T.numPhases <;> by_cases hJ : J < n' <;>
      simp [phaseEntry, h1, hp, hJ, List.getElem?_replicate]
  · intro p c J
    rw [main]
    by_cases h1 : (selection (⟨params, statics, VtkDiffusionModule.fresh⟩ :
        State S)).diffusionCoefficient = true <;> by_cases hp : p < T.numPhases <;>
      by_cases hc : c < T.numComponents <;> by_cases hJ : J < n' <;>
      simp [phaseComponentEntry, h1, hp, hc, hJ, List.getElem?_replicate]
  · intro p c J
    rw [main]
    by_cases h1 : (selection (⟨params, statics, VtkDiffusionModule.fresh⟩ :
        State S)).effectiveDiffusionCoefficient = true <;> by_cases hp : p < T.numPhases <;>
      by_cases hc : c < T.numComponents <;> by_cases hJ : J < n' <;>
      simp [phaseComponentEntry, h1, hp, hc, hJ, List.getElem?_replicate]
  · rw [main, allocBuffers_eq]
    simp only [VtkDiffusionModule.fresh]
  · intro w1
    refine ⟨by rw [allocBuffers_eq], allocBuffers_selection T n' w1, ?_⟩
    rw [allocBuffers_eq T n' (allocBuffers T n' w1), allocBuffers_selection]
    rw [allocBuffers_eq]
    cases (selection w1).tortuosity <;> cases (selection w1).diffusionCoefficient <;>
      cases (selection w1).effectiveDiffusionCoefficient <;> simp

/-- C9 at a concrete input: after two elements the tortuosity buffer for three DOFs
holds the written value 121 at `[1][1]`; the second allocation, for five DOFs,
leaves zero buffers of inner length five for the two enabled quantities and no
buffer for the disabled one. -/
theorem allocBuffers_again_witness :
    ∃ w, processElements demoTag [demoContext, otherContext]
        (allocBuffers demoTag 3 (demoState true)) = some w ∧
      phaseEntry w.module.tortuosity_ 1 1 = some 121 ∧
      (allocBuffers demoTag 5 w).module =
        ⟨some [[0, 0, 0, 0, 0], [0, 0, 0, 0, 0]], none,
          some [[[0, 0, 0, 0, 0], [0, 0, 0, 0, 0]], [[0, 0, 0, 0, 0], [0, 0, 0, 0, 0]]]⟩ := by
  obtain ⟨w, hw⟩ : ∃ w, processElements demoTag [demoContext, otherContext]
      (allocBuffers demoTag 3 (demoState true)) = some w := by
    rw [Option.isSome_iff_exists.symm]
    decide
  have hp : (processElements demoTag [demoContext, otherContext]
      (allocBuffers demoTag 3 (demoState true))).map
        (fun s => phaseEntry s.module.tortuosity_ 1 1) = some (some 121) := by decide
  rw [hw] at hp
  refine ⟨w, hw, by simpa using hp, ?_⟩
  exact (allocBuffers_again demoTag 3 5 ⟨true, true, false, true⟩ FlagStatics.unresolved
    [demoContext, otherContext] w hw).2.1.trans (by decide)

/-- C6: each flag accessor returns the static when it is initialised and the
configuration value otherwise, and stores what it returns; after a call, whatever
sequence of configuration changes and of `allocBuffers`, `processElement` and
`commitBuffers` calls follows, the accessor returns the same value again. -/
theorem flag_accessors_idempotent [Zero S] (T : TypeTag S E) (w : State S)
    (ops : List (Operation S E)) (wT wD wE : State S)
    (hT : runAll T ops (tortuosityOutput_ w).2 = some wT)
    (hD : runAll T ops (diffusionCoefficientOutput_ w).2 = some wD)
    (hE : runAll T ops (effectiveDiffusionCoefficientOutput_ w).2 = some wE) :
    ((tortuosityOutput_ w).1 = w.statics.tortuosityVal.getD w.params.vtkWriteTortuosities ∧
        (tortuosityOutput_ w).2.statics.tortuosityVal = some (tortuosityOutput_ w).1 ∧
        (tortuosityOutput_ wT).1 = (tortuosityOutput_ w).1) ∧
      ((diffusionCoefficientOutput_ w).1 =
          w.statics.diffusionCoefficientVal.getD w.params.vtkWriteDiffusionCoefficients ∧
        (diffusionCoefficientOutput_ w).2.statics.diffusionCoefficientVal =
          some (diffusionCoefficientOutput_ w).1 ∧
        (diffusionCoefficientOutput_ wD).1 = (diffusionCoefficientOutput_ w).1) ∧
      ((effectiveDiffusionCoefficientOutput_ w).1 =
          w.statics.effectiveDiffusionCoefficientVal.getD
            w.params.vtkWriteEffectiveDiffusionCoefficients ∧
        (effectiveDiffusionCoefficientOutput_ w).2.statics.effectiveDiffusionCoefficientVal =
          some (effectiveDiffusionCoefficientOutput_ w).1 ∧
        (effectiveDiffusionCoefficientOutput_ wE).1 =
          (effectiveDiffusionCoefficientOutput_ w).1) := by
  have sT : (tortuosityOutput_ w).2.statics.tortuosityVal = some (tortuosityOutput_ w).1 := by
    rw [tortuosityOutput_snd]; rfl
  have sD : (diffusionCoefficientOutput_ w).2.statics.diffusionCoefficientVal =
      some (diffusionCoefficientOutput_ w).1 := by
    rw [diffusionCoefficientOutput_snd]; rfl
  have sE : (effectiveDiffusionCoefficientOutput_ w).2.statics.effectiveDiffusionCoefficientVal =
      some (effectiveDiffusionCoefficientOutput_ w).1 := by
    rw [effectiveDiffusionCoefficientOutput_snd]; rfl
  refine ⟨⟨?_, sT, ?_⟩, ⟨?_, sD, ?_⟩, ⟨?_, sE, ?_⟩⟩
  · rw [tortuosityOutput_fst, selection_eq]
  · exact selection_of_staticT wT _ ((runAll_statics T ops hT).1 _ sT)
  · rw [diffusionCoefficientOutput_fst, selection_eq]
  · exact selection_of_staticD wD _ ((runAll_statics T ops hD).2.1 _ sD)
  · rw [effectiveDiffusionCoefficientOutput_fst, selection_eq]
  · exact selection_of_staticE wE _ ((runAll_statics T ops hE).2.2 _ sE)

/-- C6 at a concrete input: the tortuosity parameter is switched off after the first call
of the accessor, which goes on returning `true`. -/
theorem flag_accessors_idempotent_witness :
    ∃ wT, runAll demoTag
        [Operation.configure ⟨true, false, true, false⟩, Operation.alloc 2,
          Operation.process demoContext, Operation.commit ⟨true, []⟩]
        (tortuosityOutput_ (demoState true)).2 = some wT ∧
      wT.params.vtkWriteTortuosities = false ∧ (tortuosityOutput_ wT).1 = true := by
  obtain ⟨wT, hT⟩ : ∃ wT, runAll demoTag
      [Operation.configure ⟨true, false, true, false⟩, Operation.alloc 2,
        Operation.process demoContext, Operation.commit ⟨true, []⟩]
      (tortuosityOutput_ (demoState true)).2 = some wT := by
    rw [Option.isSome_iff_exists.symm]
    decide
  obtain ⟨wD, hD⟩ : ∃ wD, runAll demoTag
      [Operation.configure ⟨true, false, true, false⟩, Operation.alloc 2,
        Operation.process demoContext, Operation.commit ⟨true, []⟩]
      (diffusionCoefficientOutput_ (demoState true)).2 = some wD := by
    rw [Option.isSome_iff_exists.symm]
    decide
  obtain ⟨wE, hE⟩ : ∃ wE, runAll demoTag
      [Operation.configure ⟨true, false, true, false⟩, Operation.alloc 2,
        Operation.process demoContext, Operation.commit ⟨true, []⟩]
      (effectiveDiffusionCoefficientOutput_ (demoState true)).2 = some wE := by
    rw [Option.isSome_iff_exists.symm]
    decide
  have h := (flag_accessors_idempotent demoTag (demoState true) _ wT wD wE hT hD hE).1.2.2
  refine ⟨wT, hT, ?_, h⟩
  have hp : (Option.map (fun s => s.params.vtkWriteTortuosities) (runAll demoTag
      [Operation.configure ⟨true, false, true, false⟩, Operation.alloc 2,
        Operation.process demoContext, Operation.commit ⟨true, []⟩]
      (tortuosityOutput_ (demoState true)).2)) = some false := by decide
  rw [hT] at hp
  simpa using hp

/-- C10: a `processElement` call that returns a state has changed no buffer
element whose global index is not the global index of a local DOF of the element,
has changed no outer or inner length of the three buffers, and has not changed
the buffer of a disabled quantity, with the gate on or off; and two
`processElement` calls on element contexts without a common global index give
the same result in either order. -/
theorem processElement_frame (T : TypeTag S E) (elemCtx : ElementContext E) (w w' : State S)
    (h : processElement T elemCtx w = some w') :
    (∀ J, (∀ i, i < elemCtx.numPrimaryDof 0 → elemCtx.globalSpaceIndex i 0 ≠ J) →
        (∀ p, phaseEntry w'.module.tortuosity_ p J = phaseEntry w.module.tortuosity_ p J) ∧
        (∀ p c, phaseComponentEntry w'.module.diffusionCoefficient_ p c J =
          phaseComponentEntry w.module.diffusionCoefficient_ p c J) ∧
        (∀ p c, phaseComponentEntry w'.module.effectiveDiffusionCoefficient_ p c J =
          phaseComponentEntry w.module.effectiveDiffusionCoefficient_ p c J)) ∧
      (phaseShape w'.module.tortuosity_ = phaseShape w.module.tortuosity_ ∧
        phaseComponentShape w'.module.diffusionCoefficient_ =
          phaseComponentShape w.module.diffusionCoefficient_ ∧
        phaseComponentShape w'.module.effectiveDiffusionCoefficient_ =
          phaseComponentShape w.module.effectiveDiffusionCoefficient_) ∧
      (((selection w).tortuosity = false → w'.module.tortuosity_ = w.module.tortuosity_) ∧
        ((selection w).diffusionCoefficient = false →
          w'.module.diffusionCoefficient_ = w.module.diffusionCoefficient_) ∧
        ((selection w).effectiveDiffusionCoefficient = false →
          w'.module.effectiveDiffusionCoefficient_ =
            w.module.effectiveDiffusionCoefficient_)) ∧
      (∀ other : ElementContext E,
        (∀ i, i < elemCtx.numPrimaryDof 0 → ∀ j, j < other.numPrimaryDof 0 →
          elemCtx.globalSpaceIndex i 0 ≠ other.globalSpaceIndex j 0) →
        (processElement T elemCtx w).bind (processElement T other) =
          (processElement T other w).bind (processElement T elemCtx)) := by
  have e := processElement_effect T elemCtx h
  have hnone : ∀ cell : Cell,
      (∀ i, i < elemCtx.numPrimaryDof 0 → elemCtx.globalSpaceIndex i 0 ≠ cell.index) →
      entry w' cell = entry w cell := by
    intro cell hc
    rw [e.entries cell]
    by_cases hg : w.params.enableVtkOutput = true
    · simp only [hg, if_true, overwrite, elementWrites_eq_none _ T elemCtx cell hc]
    · simp [hg, overwrite]
  refine ⟨fun J hJ => ⟨fun p => ?_, fun p c => ?_, fun p c => ?_⟩,
    ⟨e.shapeT, e.shapeD, e.shapeE⟩, ⟨e.offT, e.offD, e.offE⟩,
    fun other hdisj => processElement_comm T elemCtx other hdisj w⟩
  · exact hnone (Cell.tortuosity p J) hJ
  · exact hnone (Cell.diffusionCoefficient p c J) hJ
  · exact hnone (Cell.effectiveDiffusionCoefficient p c J) hJ

/-- C10 at a concrete input: an element with the global indices 0 and 1 and an element
with the global index 2. -/
theorem processElement_frame_witness :
    ∃ w', processElement demoTag demoContext (allocBuffers demoTag 3 (demoState true)) = some w' ∧
      phaseEntry w'.module.tortuosity_ 0 2 = some 0 ∧
      (processElement demoTag demoContext (allocBuffers demoTag 3 (demoState true))).bind
          (processElement demoTag otherContext) =
        (processElement demoTag otherContext (allocBuffers demoTag 3 (demoState true))).bind
          (processElement demoTag demoContext) := by
  obtain ⟨w', hw'⟩ : ∃ w', processElement demoTag demoContext
      (allocBuffers demoTag 3 (demoState true)) = some w' := by
    rw [Option.isSome_iff_exists.symm]
    decide
  obtain ⟨h1, -, -, h4⟩ := processElement_frame demoTag demoContext _ w' hw'
  refine ⟨w', hw', ?_, h4 otherContext (by decide)⟩
  rw [(h1 2 (by decide)).1 0]
  decide

end Claims

end Opm
